import Mathlib

/-!
Verification of the blazel extract-load orchestrator core against its
natural-language specification.  The Python sources under `src/blazel/`
(catalog in `base.py`, task model and job planner in `tasks.py`, stage
encoder and load engine in `tables.py`) are shallowly embedded below:
Python dicts become ordered association lists, dataclasses become
structures, exceptions become `Except`/`Option`, and environment- or
time-derived values (database name, `DATABASE_STAGE`, wall clock, random
ids, the DynamoDB watermark store, gzip compression sizes) become explicit
parameters.
-/

set_option maxRecDepth 4096

/-- Untyped document values: the YAML/JSON-like trees handled by the
serialization layer (`serialized` / `from_serialized` in `base.py`).
Python dicts are ordered, hence the association-list representation. -/
inductive Doc where
  | str : String → Doc
  | int : Int → Doc
  | bool : Bool → Doc
  | null : Doc
  | list : List Doc → Doc
  | map : List (String × Doc) → Doc
deriving Repr

/-- Python truthiness for document values (`if value:`). -/
def Doc.truthy : Doc → Bool
  | .str s => s ≠ ""
  | .int n => n ≠ 0
  | .bool b => b
  | .null => false
  | .list l => !l.isEmpty
  | .map m => !m.isEmpty

/-- Truthiness of an optional document value (a Python variable that may be
`None`). -/
def optDocTruthy : Option Doc → Bool
  | none => false
  | some d => d.truthy

/-- Python string truthiness for an optional string. -/
def optStrTruthy : Option String → Bool
  | none => false
  | some s => s ≠ ""

/-- Python int truthiness for an optional int. -/
def optIntTruthy : Option Int → Bool
  | none => false
  | some n => n ≠ 0

/-- Python `str.lower()` at the character-list level (`Char.toLower` is the
ASCII lowering; catalog identifiers are ASCII). -/
def strLower (s : String) : String := String.mk (s.data.map Char.toLower)

/-- Python `str.split(sep)` for a single-character separator, at the
character-list level. -/
def splitChars (sep : Char) : List Char → List (List Char)
  | [] => [[]]
  | c :: cs =>
      match splitChars sep cs with
      | [] => [[]]
      | r :: rs => if c = sep then [] :: r :: rs else (c :: r) :: rs

/-- Python `str.split(sep)` at the string level. -/
def strSplitOn (sep : Char) (s : String) : List String :=
  (splitChars sep s.data).map String.mk

/-- `dict.get(key)`: first binding of `key` in an ordered mapping. -/
def docLookup (key : String) (m : List (String × Doc)) : Option Doc :=
  (m.find? (fun p => p.1 = key)).map (·.2)

/-- `create_dict(**kwargs)` from `base.py`: keep only truthy values. -/
def createDict (entries : List (String × Doc)) : List (String × Doc) :=
  entries.filter (fun p => p.2.truthy)

/-- `TableMeta` from `base.py`: per-table policy options, all with
defaults. -/
structure TableMeta where
  ignore : Bool := false
  batches : Int := 1
  total_rows : Int := 0
  file_format : String := "csv"
  primary_key : Option String := none
  timestamp_key : Option String := none
  batch_key : Option String := none
  source : Option String := none
  where_clause : Option String := none
  look_back_days : Option Int := none
  timestamp_field : Option String := none
  timezone : String := "Europe/Berlin"
  file_name : Option String := none
  use_tunnel : Bool := false
  avg_row_size : Int := 0
  project : Option String := none
  dataset_id : Option String := none
  location : Option String := none
  truncate : Option Bool := none
  spreadsheet_id : Option String := none
  stage_file_name : Option String := none
  stage_file_format : Option String := none
deriving Repr, DecidableEq

/-- `BaseOptions.as_dict` for `TableMeta`: emit, in field order, every field
whose value differs from its declared default. -/
def TableMeta.as_dict (m : TableMeta) : List (String × Doc) :=
  (if m.ignore ≠ false then [("ignore", Doc.bool m.ignore)] else [])
  ++ (if m.batches ≠ 1 then [("batches", Doc.int m.batches)] else [])
  ++ (if m.total_rows ≠ 0 then [("total_rows", Doc.int m.total_rows)] else [])
  ++ (if m.file_format ≠ "csv" then [("file_format", Doc.str m.file_format)] else [])
  ++ (match m.primary_key with | some s => [("primary_key", Doc.str s)] | none => [])
  ++ (match m.timestamp_key with | some s => [("timestamp_key", Doc.str s)] | none => [])
  ++ (match m.batch_key with | some s => [("batch_key", Doc.str s)] | none => [])
  ++ (match m.source with | some s => [("source", Doc.str s)] | none => [])
  ++ (match m.where_clause with | some s => [("where_clause", Doc.str s)] | none => [])
  ++ (match m.look_back_days with | some n => [("look_back_days", Doc.int n)] | none => [])
  ++ (match m.timestamp_field with | some s => [("timestamp_field", Doc.str s)] | none => [])
  ++ (if m.timezone ≠ "Europe/Berlin" then [("timezone", Doc.str m.timezone)] else [])
  ++ (match m.file_name with | some s => [("file_name", Doc.str s)] | none => [])
  ++ (if m.use_tunnel ≠ false then [("use_tunnel", Doc.bool m.use_tunnel)] else [])
  ++ (if m.avg_row_size ≠ 0 then [("avg_row_size", Doc.int m.avg_row_size)] else [])
  ++ (match m.project with | some s => [("project", Doc.str s)] | none => [])
  ++ (match m.dataset_id with | some s => [("dataset_id", Doc.str s)] | none => [])
  ++ (match m.location with | some s => [("location", Doc.str s)] | none => [])
  ++ (match m.truncate with | some b => [("truncate", Doc.bool b)] | none => [])
  ++ (match m.spreadsheet_id with | some s => [("spreadsheet_id", Doc.str s)] | none => [])
  ++ (match m.stage_file_name with | some s => [("stage_file_name", Doc.str s)] | none => [])
  ++ (match m.stage_file_format with | some s => [("stage_file_format", Doc.str s)] | none => [])

/-- Assign one keyword argument of `TableMeta(**kwargs)`.  An unknown key
(or a value of the wrong shape for the field) is a `TypeError`, i.e.
`none`. -/
def TableMeta.setField (m : TableMeta) : String × Doc → Option TableMeta
  | ("ignore", Doc.bool b) => some { m with ignore := b }
  | ("batches", Doc.int n) => some { m with batches := n }
  | ("total_rows", Doc.int n) => some { m with total_rows := n }
  | ("file_format", Doc.str s) => some { m with file_format := s }
  | ("primary_key", Doc.str s) => some { m with primary_key := some s }
  | ("timestamp_key", Doc.str s) => some { m with timestamp_key := some s }
  | ("batch_key", Doc.str s) => some { m with batch_key := some s }
  | ("source", Doc.str s) => some { m with source := some s }
  | ("where_clause", Doc.str s) => some { m with where_clause := some s }
  | ("look_back_days", Doc.int n) => some { m with look_back_days := some n }
  | ("timestamp_field", Doc.str s) => some { m with timestamp_field := some s }
  | ("timezone", Doc.str s) => some { m with timezone := s }
  | ("file_name", Doc.str s) => some { m with file_name := some s }
  | ("use_tunnel", Doc.bool b) => some { m with use_tunnel := b }
  | ("avg_row_size", Doc.int n) => some { m with avg_row_size := n }
  | ("project", Doc.str s) => some { m with project := some s }
  | ("dataset_id", Doc.str s) => some { m with dataset_id := some s }
  | ("location", Doc.str s) => some { m with location := some s }
  | ("truncate", Doc.bool b) => some { m with truncate := some b }
  | ("spreadsheet_id", Doc.str s) => some { m with spreadsheet_id := some s }
  | ("stage_file_name", Doc.str s) => some { m with stage_file_name := some s }
  | ("stage_file_format", Doc.str s) => some { m with stage_file_format := some s }
  | _ => none

/-- `TableMeta(**kwargs)`: fold the keyword dict over the defaults. -/
def TableMeta.from_kwargs (kwargs : List (String × Doc)) : Option TableMeta :=
  kwargs.foldlM TableMeta.setField {}

/-- `Column` from `base.py`.  `dtype` is lowercased by `__post_init__`;
`meta` and `tests` are opaque document values. -/
structure Column where
  name : String
  dtype : String
  description : Option String := none
  source : Option String := none
  meta : Option Doc := none
  tests : Option Doc := none
deriving Repr

/-- `Column(...)` constructor including the `__post_init__` lowercasing of
`dtype`. -/
def Column.make (name dtype : String) (description : Option String := none)
    (source : Option String := none) (meta : Option Doc := none)
    (tests : Option Doc := none) : Column :=
  { name := name, dtype := strLower dtype, description := description,
    source := source, meta := meta, tests := tests }

/-- `Column.as_dict`: fields differing from their default, in field order
(`name` and `dtype` have no default and always appear). -/
def Column.as_dict (c : Column) : List (String × Doc) :=
  [("name", Doc.str c.name), ("dtype", Doc.str c.dtype)]
  ++ (match c.description with | some s => [("description", Doc.str s)] | none => [])
  ++ (match c.source with | some s => [("source", Doc.str s)] | none => [])
  ++ (match c.meta with | some d => [("meta", d)] | none => [])
  ++ (match c.tests with | some d => [("tests", d)] | none => [])

/-- `Column.serialized`: the dtype string when only `dtype` is non-default,
otherwise the mapping without the `name` key. -/
def Column.serialized (c : Column) : Doc :=
  let column := c.as_dict.filter (fun p => p.1 ≠ "name")
  if column.length = 1 then Doc.str c.dtype else Doc.map column

/-- Assign one keyword argument of `Column(name, **kwargs)`. -/
def Column.setField (c : Column) : String × Doc → Option Column
  | ("dtype", Doc.str s) => some { c with dtype := s }
  | ("description", Doc.str s) => some { c with description := some s }
  | ("source", Doc.str s) => some { c with source := some s }
  | ("meta", d) => some { c with meta := some d }
  | ("tests", d) => some { c with tests := some d }
  | _ => none

/-- `Column.from_serialized(column_name, column_serialized)`: a plain string
is the dtype; a mapping is splatted into the constructor (which requires a
`dtype` key).  `__post_init__` lowercases the resulting dtype. -/
def Column.from_serialized (column_name : String) : Doc → Option Column
  | Doc.str s => some (Column.make column_name s)
  | Doc.map kwargs => do
      let c ← kwargs.foldlM Column.setField
        { name := column_name, dtype := "" }
      if (docLookup "dtype" kwargs).isSome then
        some { c with dtype := strLower c.dtype }
      else
        none
  | _ => none

/-- `BaseTable` from `base.py`.  The `schema` back-reference is flattened to
the owning schema's name (`schema_name` property); columns are the ordered
`columns` dict (each entry keyed by the column's name). -/
structure BaseTable where
  schema_name : String
  name : String
  description : Option String := none
  meta : TableMeta := {}
  columns : List Column := []
deriving Repr

/-- `BaseTable.column_names`. -/
def BaseTable.column_names (t : BaseTable) : List String :=
  t.columns.map (·.name)

/-- `BaseTable.serialized`: `_description` and `_meta` pseudo-keys followed
by the columns inline, with falsy values elided by `create_dict`. -/
def BaseTable.serialized (t : BaseTable) : Doc :=
  Doc.map (createDict (
    [("_description", match t.description with | some s => Doc.str s | none => Doc.null),
     ("_meta", Doc.map t.meta.as_dict)]
    ++ t.columns.map (fun c => (c.name, c.serialized))))

/-- `BaseTable.from_serialized(schema, table_name, table_serialized)`:
`meta` falls back to `_meta` (Python `or`, so a falsy `meta` value also
falls through); columns come from a `columns` key when present, otherwise
from every non-pseudo key. -/
def BaseTable.from_serialized (schema_name table_name : String) :
    Doc → Option BaseTable
  | Doc.map entries => do
      let metaDoc :=
        match docLookup "meta" entries with
        | some v => if v.truthy then v else
            (match docLookup "_meta" entries with
             | some w => if w.truthy then w else Doc.map []
             | none => Doc.map [])
        | none =>
            (match docLookup "_meta" entries with
             | some w => if w.truthy then w else Doc.map []
             | none => Doc.map [])
      let metaKwargs ← match metaDoc with
        | Doc.map kw => some kw
        | _ => none
      let meta ← TableMeta.from_kwargs metaKwargs
      let description ← match docLookup "_description" entries with
        | none => some none
        | some (Doc.str s) => some (some s)
        | some Doc.null => some none
        | some _ => none
      let columnsEntries ← match docLookup "columns" entries with
        | some (Doc.map cols) => some cols
        | some _ => none
        | none => some (entries.filter
            (fun p => p.1 ≠ "_description" ∧ p.1 ≠ "_meta"))
      let columns ← columnsEntries.mapM
        (fun p => Column.from_serialized p.1 p.2)
      some { schema_name := schema_name, name := table_name,
             description := description, meta := meta, columns := columns }
  | _ => none

/-- `BaseSchema` from `base.py`.  The `warehouse` back-reference is dropped
(it is navigation, not state); `description` and `meta` are raw document
values since `from_serialized` assigns them untyped. -/
structure BaseSchema where
  name : String
  description : Option Doc := none
  meta : Option Doc := none
  tables : List BaseTable := []
deriving Repr

/-- `BaseSchema.serialized`: optional `_description` / `_meta` pseudo-keys
(emitted only when truthy) followed by each table. -/
def BaseSchema.serialized (s : BaseSchema) : Doc :=
  Doc.map (
    (if optDocTruthy s.description then
      [("_description", s.description.getD Doc.null)] else [])
    ++ (if optDocTruthy s.meta then [("_meta", s.meta.getD Doc.null)] else [])
    ++ s.tables.map (fun t => (t.name, t.serialized)))

/-- One step of the `BaseSchema.from_serialized` loop.  Mirrors `base.py`
lines 287-299: the `_meta` branch assigns `schema.description` (not
`schema.meta`), exactly as the source does. -/
def BaseSchema.fromStep (schema : BaseSchema) (p : String × Doc) :
    Option BaseSchema :=
  if p.1 = "_description" then
    some { schema with description := some p.2 }
  else if p.1 = "_meta" then
    some { schema with description := some p.2 }
  else do
    let table ← BaseTable.from_serialized schema.name p.1 p.2
    some { schema with tables := schema.tables ++ [table] }

/-- `BaseSchema.from_serialized(warehouse, schema_name, schema_serialized)`. -/
def BaseSchema.from_serialized (schema_name : String) : Doc → Option BaseSchema
  | Doc.map entries => entries.foldlM BaseSchema.fromStep { name := schema_name }
  | _ => none

/-- `BaseWarehouse` from `base.py`: the ordered `schemas` dict. -/
structure BaseWarehouse where
  schemas : List BaseSchema := []
deriving Repr

/-- `BaseWarehouse.serialized`. -/
def BaseWarehouse.serialized (w : BaseWarehouse) : Doc :=
  Doc.map (w.schemas.map (fun s => (s.name, s.serialized)))

/-- `BaseWarehouse.from_serialized(warehouse_serialized)`. -/
def BaseWarehouse.from_serialized : Doc → Option BaseWarehouse
  | Doc.map entries => do
      let schemas ← entries.mapM (fun p => BaseSchema.from_serialized p.1 p.2)
      some { schemas := schemas }
  | _ => none

-- ### Catalog filtering (`base.py` `filter_tables` / `filter_schemas` / `filter`)

/-- `BaseSchema.filter_tables(table_names)`: with no name list, keep the
non-ignored tables; with an explicit list, keep exactly the named tables
(list entries lowercased) regardless of the ignore flag. -/
def BaseSchema.filter_tables (s : BaseSchema)
    (table_names : Option (List String)) : List BaseTable :=
  match table_names with
  | none => s.tables.filter (fun t => !t.meta.ignore)
  | some names =>
      let lnames := names.map strLower
      s.tables.filter (fun t => t.name ∈ lnames)

/-- `BaseWarehouse.filter_schemas(schema_names)`. -/
def BaseWarehouse.filter_schemas (w : BaseWarehouse)
    (schema_names : Option (List String)) : List BaseSchema :=
  match schema_names with
  | none => w.schemas
  | some names =>
      let lnames := names.map strLower
      w.schemas.filter (fun s => s.name ∈ lnames)

/-- One pass structure of the `stratify=True` loop in
`BaseWarehouse.filter`: drop exhausted queues, pop the head of every
remaining queue in order, recurse on the tails.  `fuel` bounds the number
of passes; the total number of queued tables suffices, since every pass
with a surviving queue pops at least one table. -/
def roundRobinAux (fuel : Nat) (qs : List (List BaseTable)) : List BaseTable :=
  match fuel with
  | 0 => []
  | fuel + 1 =>
    let qs2 := qs.filter (fun q => !q.isEmpty)
    if qs2.isEmpty then []
    else qs2.filterMap List.head? ++ roundRobinAux fuel (qs2.map List.tail)

/-- The `stratify=True` branch of `BaseWarehouse.filter` (`base.py` lines
370-379): repeatedly pop the head of every non-empty per-schema queue, in
schema order, until all queues are drained. -/
def roundRobin (qs : List (List BaseTable)) : List BaseTable :=
  roundRobinAux (qs.map List.length).sum qs

/-- The spec's description of the stratified order ("schema0.t0,
schema1.t0, ..., schema0.t1, ..."): level `i` lists the `i`-th selected
table of every schema, in schema order, and the levels are concatenated. -/
def stratifySpec (qs : List (List BaseTable)) : List BaseTable :=
  (List.range ((qs.map List.length).foldr max 0)).flatMap
    (fun i => qs.filterMap (fun q => q[i]?))

/-- `BaseWarehouse.filter(schema_names, table_names, stratify)`: build the
per-schema lists of selected tables, then either interleave them round-robin
(`stratify`) or concatenate them in schema order. -/
def BaseWarehouse.filter (w : BaseWarehouse)
    (schema_names table_names : Option (List String))
    (stratify : Bool := false) : List BaseTable :=
  let queues := (w.filter_schemas schema_names).map
    (fun s => s.filter_tables table_names)
  if stratify then roundRobin queues else queues.flatten

-- ### Task model and job planner (`tasks.py`)

/-- `TaskOptions` from `tasks.py` (`end` is renamed `end_`, a Lean keyword). -/
structure TaskOptions where
  start : Option String := none
  end_ : Option String := none
  batches : Int := 1
  total_rows : Int := 0
  limit : Int := 0
  test_error : Bool := false
  fail_on_error : String := "false"
deriving Repr, DecidableEq

/-- `CleanTask`: a table task with no extra fields.  `__post_init__`
lowercases the three name components. -/
structure CleanTask where
  job_id : String
  database_name : String
  schema_name : String
  table_name : String
deriving Repr, DecidableEq

/-- `CleanTask(...)` constructor with the `TableTask.__post_init__`
lowercasing. -/
def CleanTask.make (job_id database_name schema_name table_name : String) :
    CleanTask :=
  { job_id := job_id, database_name := strLower database_name,
    schema_name := strLower schema_name, table_name := strLower table_name }

/-- `ExtractTask`: table task with a batch number and options. -/
structure ExtractTask where
  job_id : String
  database_name : String
  schema_name : String
  table_name : String
  task_number : Int := 0
  options : TaskOptions := {}
deriving Repr, DecidableEq

/-- `ExtractTask(...)` constructor with the lowercasing `__post_init__`. -/
def ExtractTask.make (job_id database_name schema_name table_name : String)
    (task_number : Int) (options : TaskOptions) : ExtractTask :=
  { job_id := job_id, database_name := strLower database_name,
    schema_name := strLower schema_name, table_name := strLower table_name,
    task_number := task_number, options := options }

/-- `LoadTask`: table task carrying the optional truncate override. -/
structure LoadTask where
  job_id : String
  database_name : String
  schema_name : String
  table_name : String
  truncate : Option Bool := none
deriving Repr, DecidableEq

/-- `LoadTask(...)` constructor with the lowercasing `__post_init__`. -/
def LoadTask.make (job_id database_name schema_name table_name : String)
    (truncate : Option Bool) : LoadTask :=
  { job_id := job_id, database_name := strLower database_name,
    schema_name := strLower schema_name, table_name := strLower table_name,
    truncate := truncate }

/-- `ExtractLoadJob`: one clean task, a list of extract tasks, one load
task. -/
structure ExtractLoadJob where
  job_id : String
  clean : CleanTask
  extract : List ExtractTask
  load : LoadTask
deriving Repr, DecidableEq

/-- The options adjustment at the top of `ExtractLoadJob.from_table`
(`tasks.py` lines 222-231): starting from a deep copy of the caller's
options (value semantics here), apply the look-back window when `start` is
unset, then raise `batches` to the table's and overwrite `total_rows`.
`todayStart`/`todayEnd` stand for the formatted `now - look_back_days` and
`now` dates (wall clock, external). -/
def ExtractLoadJob.effective_options (todayStart todayEnd : String)
    (meta : TableMeta) (task_options : Option TaskOptions) : TaskOptions :=
  let options := task_options.getD {}
  let options :=
    if options.start = none ∧ optIntTruthy meta.look_back_days then
      { options with
        batches := if optStrTruthy meta.timestamp_key then
            meta.look_back_days.getD 0 else 1,
        start := some todayStart,
        end_ := some todayEnd }
    else options
  { options with
    batches := max options.batches meta.batches,
    total_rows := meta.total_rows }

/-- `ExtractLoadJob.from_table(table, task_options)` (`tasks.py` lines
219-258).  `job_id` stands for the fresh `uuid4` hex and `db` for the
env-derived `table.database_name`. -/
def ExtractLoadJob.from_table (job_id todayStart todayEnd db : String)
    (table : BaseTable) (task_options : Option TaskOptions) : ExtractLoadJob :=
  let options := ExtractLoadJob.effective_options todayStart todayEnd
    table.meta task_options
  { job_id := job_id,
    clean := CleanTask.make job_id db table.schema_name table.name,
    extract := (List.range options.batches.toNat).map
      (fun task_number : Nat => ExtractTask.make job_id db table.schema_name
        table.name (Int.ofNat task_number) options),
    load := LoadTask.make job_id db table.schema_name table.name
      table.meta.truncate }

/-- `Schedule`: ordered list of jobs. -/
structure Schedule where
  schedule : List ExtractLoadJob := []
deriving Repr, DecidableEq

/-- `Schedule.from_tables(tables, options)` (`tasks.py` lines 318-327): one
job per table, skipping tables whose `ignore` flag is set.  `ids i` stands
for the `uuid4` hex of the i-th job that is appended. -/
def Schedule.from_tables (ids : Nat → String) (todayStart todayEnd db : String)
    (tables : List BaseTable) (options : TaskOptions) : Schedule :=
  { schedule := (tables.filter (fun t => !t.meta.ignore)).enum.map
      (fun p => ExtractLoadJob.from_table (ids p.1) todayStart todayEnd db
        p.2 (some options)) }

/-- `ScheduleTask.__call__` (`tasks.py` lines 346-360) on the normal path
(`options.test_error` false): filter the warehouse with `stratify=True` and
build the schedule. -/
def ScheduleTask.run (ids : Nat → String) (todayStart todayEnd db : String)
    (w : BaseWarehouse) (schema_names table_names : Option (List String))
    (options : TaskOptions) : Schedule :=
  let tables := w.filter schema_names table_names true
  Schedule.from_tables ids todayStart todayEnd db tables options

-- ### Time-range planner (`tasks.py` `TimeRange`)

/-- `TimeRange` (`tasks.py` lines 372-449); `tzinfo` is kept as the zone
name. -/
structure TimeRange where
  start : Option String
  end_ : Option String
  tzinfo : String := "Europe/Berlin"
deriving Repr, DecidableEq

/-- `datetime(1900, 1, 1).strftime('%Y-%m-%dT%H:%M:%S')`. -/
def TimeRange.min_start_str : String := "1900-01-01T00:00:00"

/-- `datetime(2100, 12, 31).strftime('%Y-%m-%dT%H:%M:%S')`. -/
def TimeRange.max_end_str : String := "2100-12-31T23:59:59"

/-- `TimeRange.from_task(task, table)`: take the task options' bounds; when
`start` is `None` and the table has a truthy `timestamp_field`, read the
watermark store (`get_latest_timestamp`, passed here as the stored value
`watermark`). -/
def TimeRange.from_task (options : TaskOptions) (meta : TableMeta)
    (watermark : Option String) : TimeRange :=
  let start := options.start
  let start :=
    if start = none ∧ optStrTruthy meta.timestamp_field then watermark
    else start
  { start := start, end_ := options.end_, tzinfo := meta.timezone }

/-- `TimeRange.start_str`: the start bound if truthy, else `min_start_str`. -/
def TimeRange.start_str (tr : TimeRange) : String :=
  match tr.start with
  | some s => if s ≠ "" then s else TimeRange.min_start_str
  | none => TimeRange.min_start_str

/-- `TimeRange.end_str`: the end bound if truthy, else `max_end_str`. -/
def TimeRange.end_str (tr : TimeRange) : String :=
  match tr.end_ with
  | some s => if s ≠ "" then s else TimeRange.max_end_str
  | none => TimeRange.max_end_str

/-- The string handed to `_parse_date` by `TimeRange.start_datetime`:
date-only strings (length 10) get `T00:00:00` appended. -/
def TimeRange.start_datetime_str (tr : TimeRange) : String :=
  let date_str := tr.start_str
  if date_str.length = 10 then date_str ++ "T00:00:00" else date_str

/-- The string handed to `_parse_date` by `TimeRange.end_datetime`:
date-only strings (length 10) get `T23:59:59` appended. -/
def TimeRange.end_datetime_str (tr : TimeRange) : String :=
  let date_str := tr.end_str
  if date_str.length = 10 then date_str ++ "T23:59:59" else date_str

-- ### Load engine SQL generation (`tables.py`)

/-- `default_stage_suffix` from `tables.py`. -/
def default_stage_suffix : String := "_stage"

/-- The `SQL` statement-category enum from `tables.py`. -/
inductive SQL where
  | drop
  | create
  | truncate
  | delete
  | copy
  | update
  | insert
deriving Repr, DecidableEq

/-- `BaseTable.table_uri`: `database.schema.table`.  The database name is
derived from the environment, so it is a parameter `db` here. -/
def BaseTable.table_uri (db : String) (t : BaseTable) : String :=
  db ++ "." ++ t.schema_name ++ "." ++ t.name

/-- Zero-padding of `f'{n:02d}'` for a non-negative int. -/
def pad2 (n : Nat) : String :=
  if n < 10 then "0" ++ toString n else toString n

/-- `SnowflakeTable.get_key(batch, file, suffix)` for int arguments
(`tables.py` lines 223-227). -/
def SnowflakeTable.get_key (t : BaseTable) (batch file : Nat)
    (suffix : String := "csv.gz") : String :=
  let batchPart := "b" ++ pad2 batch
  let filePart := "f" ++ pad2 file
  let file_name := t.name ++ "_" ++ batchPart ++ "_" ++ filePart ++ "." ++ suffix
  t.schema_name ++ "/" ++ t.name ++ "/" ++ file_name

/-- `SnowflakeTable.file_format()` (`tables.py` lines 295-310), after the
`.replace(INDENT, '')` dedent.  The dedented csv block keeps its inner
newlines. -/
def SnowflakeTable.file_format (db : String) (t : BaseTable) :
    Except String String :=
  match t.meta.stage_file_format with
  | some sff =>
      if sff ≠ "" then
        Except.ok ("FORMAT_NAME = '" ++ db ++ ".public." ++ sff ++ "'")
      else ffmatch
  | none => ffmatch
where ffmatch : Except String String :=
  if t.meta.file_format = "csv" then
    Except.ok ("\nTYPE = CSV\nFIELD_DELIMITER = ';'\nSKIP_BLANK_LINES = TRUE\n"
      ++ "TRIM_SPACE = TRUE\nFIELD_OPTIONALLY_ENCLOSED_BY = '\"'\n")
  else if t.meta.file_format = "parquet" then
    Except.ok "TYPE = PARQUET"
  else
    Except.error ("Unsupported file_format '" ++ t.meta.file_format ++ "'")

/-- The per-column projection used by the parquet branch of
`copy_table_stmt`. -/
def format_timestamp (column : Column) : String :=
  if column.dtype = "timestamp" then
    "TO_TIMESTAMP_NTZ($1:" ++ column.name ++ "::int, 6)"
  else
    "$1:" ++ column.name ++ "::" ++ column.dtype

/-- `SnowflakeTable.copy_table_stmt(suffix)` (`tables.py` lines 312-341),
dedented.  `stage` is the `DATABASE_STAGE` environment value (default
`public.stage`). -/
def SnowflakeTable.copy_table_stmt (db stage : String) (t : BaseTable)
    (suffix : String := "") : Except String String :=
  if suffix ≠ "" ∧ suffix ≠ default_stage_suffix then
    Except.error ("Invalid suffix: " ++ suffix)
  else do
    let column_names := String.intercalate ", " t.column_names
    let stage_files := db ++ "." ++ stage ++ "/" ++ t.schema_name ++ "/"
      ++ t.name ++ "/"
    let ff ← SnowflakeTable.file_format db t
    if t.meta.file_format = "csv" then
      Except.ok ("COPY INTO " ++ t.table_uri db ++ suffix ++ " ("
        ++ column_names ++ ")\nFROM @" ++ stage_files
        ++ "\nFILE_FORMAT = ( " ++ ff ++ " )")
    else if t.meta.file_format = "parquet" then
      let conv_columns_str := String.intercalate ",\n"
        (t.columns.map format_timestamp)
      Except.ok ("COPY INTO " ++ t.table_uri db ++ suffix ++ " ("
        ++ column_names ++ ") FROM (\n    SELECT " ++ conv_columns_str
        ++ "\n    FROM @" ++ stage_files ++ "\n)\nFILE_FORMAT = ( "
        ++ ff ++ " )")
    else
      Except.error ("Unsupported file_format '" ++ t.meta.file_format ++ "'")

/-- `SnowflakeTable.truncate_table_stmt()`. -/
def SnowflakeTable.truncate_table_stmt (db : String) (t : BaseTable) : String :=
  "TRUNCATE TABLE IF EXISTS " ++ t.table_uri db

/-- `SnowflakeTable.update_load_date_stmt(suffix)`; `now` is
`get_now_timestamp()` (wall clock, external). -/
def SnowflakeTable.update_load_date_stmt (db now : String) (t : BaseTable)
    (suffix : String := "") : Except String String :=
  if suffix ≠ "" ∧ suffix ≠ default_stage_suffix then
    Except.error ("Invalid suffix: " ++ suffix)
  else
    Except.ok ("UPDATE " ++ t.table_uri db ++ suffix ++ " SET load_date='"
      ++ now ++ "'")

/-- `SnowflakeTable.drop_staging_table_stmt()`. -/
def SnowflakeTable.drop_staging_table_stmt (db : String) (t : BaseTable) :
    String :=
  "DROP TABLE IF EXISTS " ++ t.table_uri db ++ default_stage_suffix

/-- `SnowflakeTable.create_staging_table_stmt()`. -/
def SnowflakeTable.create_staging_table_stmt (db : String) (t : BaseTable) :
    String :=
  "CREATE TABLE " ++ t.table_uri db ++ default_stage_suffix ++ " LIKE "
    ++ t.table_uri db

/-- `SnowflakeTable.load_stmt()` (overwrite mode, `tables.py` lines
365-371): truncate, copy, update-load-date. -/
def SnowflakeTable.load_stmt (db stage now : String) (t : BaseTable) :
    Except String (List (SQL × String)) := do
  let copy ← SnowflakeTable.copy_table_stmt db stage t
  let upd ← SnowflakeTable.update_load_date_stmt db now t
  Except.ok [(SQL.truncate, SnowflakeTable.truncate_table_stmt db t),
    (SQL.copy, copy), (SQL.update, upd)]

/-- `SnowflakeTableUpsert.delete_by_primary_key()` (`tables.py` lines
549-560): AND-joined equality on each semicolon-split primary-key
component. -/
def SnowflakeTableUpsert.delete_by_primary_key (db : String) (t : BaseTable) :
    Except String String :=
  match t.meta.primary_key with
  | none => Except.error "Primary key is not set"
  | some pk =>
      let primary_key_columns := strSplitOn ';' pk
      let where_clause := String.intercalate " AND "
        (primary_key_columns.map (fun column =>
          t.name ++ "." ++ column ++ " = " ++ t.name ++ default_stage_suffix
            ++ "." ++ column))
      Except.ok ("DELETE FROM " ++ t.table_uri db ++ "\nUSING "
        ++ t.table_uri db ++ default_stage_suffix ++ "\nWHERE " ++ where_clause)

/-- `SnowflakeTableUpsert.delete_by_datetime_range()` (`tables.py` lines
562-572), dedented: delete target rows whose `timestamp_key` lies in the
staged `[MIN, MAX]` range or is NULL. -/
def SnowflakeTableUpsert.delete_by_datetime_range (db : String)
    (t : BaseTable) : String :=
  let ts := match t.meta.timestamp_key with | some s => s | none => "None"
  "DELETE FROM " ++ t.table_uri db ++ "\nUSING (\n    SELECT\nMIN(" ++ ts
    ++ ") AS min_ts,\nMAX(" ++ ts ++ ") AS max_ts\n    FROM "
    ++ t.table_uri db ++ default_stage_suffix
    ++ "\n) AS range\nWHERE (" ++ ts
    ++ " BETWEEN range.min_ts AND range.max_ts)\n    OR " ++ ts ++ " IS NULL"

/-- `SnowflakeTableUpsert.delete_from_table_stmt()` (`tables.py` lines
574-579): primary key first, then timestamp key, else a `ValueError`. -/
def SnowflakeTableUpsert.delete_from_table_stmt (db : String) (t : BaseTable) :
    Except String String :=
  if optStrTruthy t.meta.primary_key then
    SnowflakeTableUpsert.delete_by_primary_key db t
  else if optStrTruthy t.meta.timestamp_key then
    Except.ok (SnowflakeTableUpsert.delete_by_datetime_range db t)
  else
    Except.error "Primary key or timestamp_key is required for upsert."

/-- `SnowflakeTableUpsert.insert_into_table_stmt()`. -/
def SnowflakeTableUpsert.insert_into_table_stmt (db : String)
    (t : BaseTable) : String :=
  "INSERT INTO " ++ t.table_uri db ++ " SELECT * FROM " ++ t.table_uri db
    ++ default_stage_suffix

/-- `SnowflakeTableUpsert.load_stmt()` (`tables.py` lines 585-598): with an
explicit truthy `meta.truncate` fall back to the overwrite statements,
otherwise emit the six-statement upsert sequence. -/
def SnowflakeTableUpsert.load_stmt (db stage now : String) (t : BaseTable) :
    Except String (List (SQL × String)) :=
  if t.meta.truncate.getD false then
    SnowflakeTable.load_stmt db stage now t
  else do
    let copy ← SnowflakeTable.copy_table_stmt db stage t default_stage_suffix
    let upd ← SnowflakeTable.update_load_date_stmt db now t
      default_stage_suffix
    let del ← SnowflakeTableUpsert.delete_from_table_stmt db t
    Except.ok [(SQL.drop, SnowflakeTable.drop_staging_table_stmt db t),
      (SQL.create, SnowflakeTable.create_staging_table_stmt db t),
      (SQL.copy, copy), (SQL.update, upd), (SQL.delete, del),
      (SQL.insert, SnowflakeTableUpsert.insert_into_table_stmt db t)]

/-- `load_stmt_str()`: the statements joined with `;\n`. -/
def load_stmt_str (stmts : List (SQL × String)) : String :=
  String.intercalate ";\n" (stmts.map (·.2))

-- ### Stage encoder (`tables.py`: `GzipFileBuffer`, `get_data_bytes`)

/-- The escaping of one character by `csv.writer` under the fixed dialect
(delimiter `;`, quote `"`, minimal quoting, escapechar `\`, doublequote):
the escape character is escaped, the quote character is doubled, everything
else is copied. -/
def encodeChar (c : Char) : List Char :=
  if c = '\\' then ['\\', '\\']
  else if c = '"' then ['"', '"']
  else [c]

/-- Under minimal quoting the writer quotes a field that contains the
delimiter, the quote character, or a line-terminator character. -/
def cellNeedsQuote (s : List Char) : Bool :=
  s.any (fun c => c = ';' || c = '"' || c = '\n')

/-- One CSV field as written by `csv.writer`. -/
def encodeCellChars (s : List Char) : List Char :=
  let body := (s.map encodeChar).flatten
  if cellNeedsQuote s then '"' :: (body ++ ['"']) else body

/-- One CSV record as written by `csv.writer.writerow`: fields joined with
`;` and terminated by `\n`; a record whose single field is empty is written
as a quoted empty field so it stays distinguishable from a blank line. -/
def encodeRowChars (r : List (List Char)) : List Char :=
  if r = [[]] then ['"', '"', '\n']
  else (List.intercalate [';'] (r.map encodeCellChars)) ++ ['\n']

/-- `csv.writer.writerows`. -/
def encodeRowsChars (rows : List (List (List Char))) : List Char :=
  (rows.map encodeRowChars).flatten

/-- `GzipFileBuffer.get_csv_bytes(rows)`: the CSV text of a batch of rows
(cells are modelled as strings). -/
def get_csv_bytes (rows : List (List String)) : String :=
  ⟨encodeRowsChars (rows.map (fun r => r.map String.data))⟩

/-- Parser state machine modes for the fixed CSV dialect. -/
inductive CsvMode where
  | fieldStart (recordStart : Bool)
  | inField
  | afterEscU
  | inQuotes
  | afterEscQ
  | afterQuote
deriving Repr, DecidableEq

/-- Parser state: current mode, current field, current record, finished
records. -/
structure CsvState where
  mode : CsvMode := CsvMode.fieldStart true
  field : List Char := []
  row : List (List Char) := []
  rows : List (List (List Char)) := []
deriving Repr, DecidableEq

/-- Modelled from the spec: one step of a reader for the fixed CSV dialect
(delimiter `;`, quote `"`, escape `\`, line terminator `\n`).  The reading
side of the staging pipeline is the warehouse COPY, which is outside the
repository; this reader realizes the dialect the spec fixes for it. -/
def csvStep (st : CsvState) (c : Char) : CsvState :=
  match st.mode with
  | CsvMode.fieldStart recordStart =>
      if c = '\n' then
        if recordStart then
          { st with
            rows := st.rows ++ [[]]
            row := []
            field := []
            mode := CsvMode.fieldStart true }
        else
          { st with
            rows := st.rows ++ [st.row ++ [st.field]]
            row := []
            field := []
            mode := CsvMode.fieldStart true }
      else if c = '"' then { st with mode := CsvMode.inQuotes }
      else if c = ';' then
        { st with
          row := st.row ++ [st.field]
          field := []
          mode := CsvMode.fieldStart false }
      else if c = '\\' then { st with mode := CsvMode.afterEscU }
      else
        { st with
          field := st.field ++ [c]
          mode := CsvMode.inField }
  | CsvMode.inField =>
      if c = '\n' then
        { st with
          rows := st.rows ++ [st.row ++ [st.field]]
          row := []
          field := []
          mode := CsvMode.fieldStart true }
      else if c = ';' then
        { st with
          row := st.row ++ [st.field]
          field := []
          mode := CsvMode.fieldStart false }
      else if c = '\\' then { st with mode := CsvMode.afterEscU }
      else { st with field := st.field ++ [c] }
  | CsvMode.afterEscU =>
      { st with
        field := st.field ++ [c]
        mode := CsvMode.inField }
  | CsvMode.inQuotes =>
      if c = '"' then { st with mode := CsvMode.afterQuote }
      else if c = '\\' then { st with mode := CsvMode.afterEscQ }
      else { st with field := st.field ++ [c] }
  | CsvMode.afterEscQ =>
      { st with
        field := st.field ++ [c]
        mode := CsvMode.inQuotes }
  | CsvMode.afterQuote =>
      if c = '"' then
        { st with
          field := st.field ++ ['"']
          mode := CsvMode.inQuotes }
      else if c = ';' then
        { st with
          row := st.row ++ [st.field]
          field := []
          mode := CsvMode.fieldStart false }
      else if c = '\n' then
        { st with
          rows := st.rows ++ [st.row ++ [st.field]]
          row := []
          field := []
          mode := CsvMode.fieldStart true }
      else
        { st with
          field := st.field ++ [c]
          mode := CsvMode.inField }

/-- Modelled from the spec: run the dialect reader over a character stream
and flush any unterminated final record. -/
def parseCsvChars (cs : List Char) : List (List (List Char)) :=
  let st := cs.foldl csvStep {}
  match st.mode with
  | CsvMode.fieldStart true => st.rows
  | _ => st.rows ++ [st.row ++ [st.field]]

/-- Modelled from the spec: dialect reader at the string level. -/
def parseCsv (s : String) : List (List String) :=
  (parseCsvChars s.data).map (fun r => r.map (fun f => String.mk f))

/-- The in-memory file buffer (`GzipFileBuffer`).  The buffer byte content
is modelled by the rows written to the open writer: `contents` is the
gzip-decompressed view of the buffer, and the compressed byte count the
source compares against `max_file_size` is obtained through an abstract
size oracle applied to it. -/
structure GzipFileBuffer where
  rows : List (List String) := []
  file_number : Nat := 1
deriving Repr, DecidableEq

/-- The decompressed content of the buffer: the CSV text of the rows
written so far. -/
def GzipFileBuffer.contents (fb : GzipFileBuffer) : String :=
  get_csv_bytes fb.rows

/-- `GzipFileBuffer.row_count`: incremented by `len(rows)` on every write,
reset on rotation, hence the length of the accumulated rows. -/
def GzipFileBuffer.row_count (fb : GzipFileBuffer) : Nat :=
  fb.rows.length

/-- `GzipFileBuffer.write(rows)`. -/
def GzipFileBuffer.write (fb : GzipFileBuffer) (batch : List (List String)) :
    GzipFileBuffer :=
  { fb with rows := fb.rows ++ batch }

/-- The `DataBytes` record yielded for one staged file; `body` is its
gzip-decompressed content. -/
structure DataBytes where
  body : String
  file_number : Nat
  row_count : Nat
deriving Repr, DecidableEq

/-- The record returned by `GzipFileBuffer.get_data_bytes()`. -/
def GzipFileBuffer.toDataBytes (fb : GzipFileBuffer) : DataBytes :=
  { body := fb.contents, file_number := fb.file_number,
    row_count := fb.row_count }

/-- The buffer after `GzipFileBuffer.get_data_bytes()`: fresh writer, next
file number, zero rows. -/
def GzipFileBuffer.reset (fb : GzipFileBuffer) : GzipFileBuffer :=
  { rows := [], file_number := fb.file_number + 1 }

/-- `itertools.batched(l, m + 1)`: chunks of `m + 1` elements.  `fuel`
bounds the number of chunks (the list length suffices, each chunk consumes
at least one element); structural recursion on it keeps the function
kernel-computable. -/
def batchedGo (m : Nat) : Nat → List α → List (List α)
  | _, [] => []
  | 0, _ :: _ => []
  | fuel + 1, a :: rest => (a :: rest.take m) :: batchedGo m fuel (rest.drop m)

/-- `itertools.batched(l, n)` (the source always calls it with a positive
batch size; `batched` raises for smaller values). -/
def batchedList (n : Nat) (l : List α) : List (List α) :=
  match n with
  | 0 => []
  | m + 1 => batchedGo m l.length l

/-- The loop of `SnowflakeTable.get_data_bytes` (`tables.py` lines
229-246): write each batch, rotate whenever the compressed buffer reaches
`max_file_size`, and flush a final file when rows remain.  `gz` is the
abstract compressed-size oracle (gzip internals are external to the
repository). -/
def getDataBytesGo (gz : String → Nat) (max_file_size : Nat) :
    List (List (List String)) → GzipFileBuffer → List DataBytes
  | [], fb => if 0 < fb.row_count then [fb.toDataBytes] else []
  | batch :: rest, fb =>
      let fb' := fb.write batch
      if max_file_size ≤ gz fb'.contents then
        fb'.toDataBytes :: getDataBytesGo gz max_file_size rest fb'.reset
      else
        getDataBytesGo gz max_file_size rest fb'

/-- `SnowflakeTable.get_data_bytes(data, max_file_size, csv_batch_size)`. -/
def SnowflakeTable.get_data_bytes (gz : String → Nat)
    (data : List (List String)) (max_file_size csv_batch_size : Nat) :
    List DataBytes :=
  getDataBytesGo gz max_file_size (batchedList csv_batch_size data) {}

-- ### Concrete fixtures (mirroring the repository's test catalog)

/-- The two-column layout used throughout the repository's tests. -/
def exColumns : List Column :=
  [Column.make "column0" "varchar", Column.make "column1" "datetime"]

/-- `schema0.table_csv_upsert` with `primary_key='column0'`. -/
def tableCsvUpsert : BaseTable :=
  { schema_name := "schema0"
    name := "table_csv_upsert"
    meta := { primary_key := some "column0" }
    columns := exColumns }

/-- A table with only a `timestamp_key`. -/
def tableTsUpsert : BaseTable :=
  { schema_name := "schema0"
    name := "table_ts"
    meta := { timestamp_key := some "column1" }
    columns := exColumns }

/-- An upsert-mode table with neither key: statement generation must
fail. -/
def tableNoKey : BaseTable :=
  { schema_name := "schema0"
    name := "table_nokey"
    columns := exColumns }

/-- A table with a look-back window and a timestamp key (for the job
planner). -/
def tableLookback : BaseTable :=
  { schema_name := "schema0"
    name := "table_lookback"
    meta := { look_back_days := some 5, timestamp_key := some "column1" }
    columns := exColumns }

/-- A catalog table for the round-trip check: one varchar column. -/
def tbl1 : BaseTable :=
  { schema_name := "schema1"
    name := "table1"
    columns := [Column.make "column1" "varchar"] }

/-- A schema carrying both a description and a meta mapping. -/
def sch1 : BaseSchema :=
  { name := "schema1"
    description := some (Doc.str "d")
    meta := some (Doc.map [("owner", Doc.str "x")])
    tables := [tbl1] }

/-- The round-trip input warehouse: one schema with description and meta. -/
def w0 : BaseWarehouse := { schemas := [sch1] }

/-- The ten-by-ten demo catalog of the filter scenario: `schema0..schema9`,
each with `table0..table9`. -/
def demoWarehouse : BaseWarehouse :=
  { schemas := (List.range 10).map (fun i =>
      { name := "schema" ++ toString i
        tables := (List.range 10).map (fun j =>
          { schema_name := "schema" ++ toString i
            name := "table" ++ toString j }) }) }

/-- A schema holding one scheduled table and one ignored table. -/
def schIgnore : BaseSchema :=
  { name := "s1"
    tables :=
      [{ schema_name := "s1", name := "ta" },
       { schema_name := "s1", name := "tb", meta := { ignore := true } }] }

/-- A warehouse with an ignored table, for the schedule claim. -/
def wIgnore : BaseWarehouse := { schemas := [schIgnore] }


/-- Caller options with `batches=7` for the job-planner counterexample. -/
def ceOptions : TaskOptions := { batches := 7 }

/-- A deterministic job-id supply for concrete schedules. -/
def idsFun : Nat → String := fun i => "job" ++ Nat.repr i

/-- The job the fixture schedule produces for the non-ignored table. -/
def exJob : ExtractLoadJob :=
  ExtractLoadJob.from_table (idsFun 0) "2024-01-01" "2024-01-06"
    "sources_dev" { schema_name := "s1", name := "ta" } (some {})

-- ## Theorems

-- ### Decimal representation helpers (for the staged-key format)

theorem toDigitsCore_length_le (b : Nat) :
    ∀ (f n : Nat) (ds : List Char),
      ds.length ≤ (Nat.toDigitsCore b f n ds).length := by
  intro f
  induction f with
  | zero => intro n ds; simp [Nat.toDigitsCore]
  | succ f ih =>
      intro n ds
      simp only [Nat.toDigitsCore]
      by_cases h : n / b = 0
      · simp [h]
      · simp only [h, if_false]
        calc ds.length ≤ (Nat.digitChar (n % b) :: ds).length := by simp
          _ ≤ _ := ih _ _

theorem toDigitsCore_length_ge_one (b : Nat) (f n : Nat) (ds : List Char)
    (hf : 1 ≤ f) :
    ds.length + 1 ≤ (Nat.toDigitsCore b f n ds).length := by
  match f, hf with
  | f + 1, _ =>
      simp only [Nat.toDigitsCore]
      by_cases h : n / b = 0
      · simp [h]
      · simp only [h, if_false]
        calc ds.length + 1 = (Nat.digitChar (n % b) :: ds).length := by simp
          _ ≤ _ := toDigitsCore_length_le b f (n / b) _

theorem digitChar_isDigit (m : Nat) (h : m < 10) :
    (Nat.digitChar m).isDigit := by
  interval_cases m <;> decide

theorem toDigitsCore_digits (b : Nat) (hb : 2 ≤ b) :
    ∀ (f n : Nat) (ds : List Char), (∀ c ∈ ds, c.isDigit) → b ≤ 10 →
      ∀ c ∈ Nat.toDigitsCore b f n ds, c.isDigit := by
  intro f
  induction f with
  | zero =>
      intro n ds hds _ c hc
      exact hds c (by simpa [Nat.toDigitsCore] using hc)
  | succ f ih =>
      intro n ds hds hb10 c hc
      have hd : (Nat.digitChar (n % b)).isDigit := by
        apply digitChar_isDigit
        calc n % b < b := Nat.mod_lt _ (by omega)
          _ ≤ 10 := hb10
      simp only [Nat.toDigitsCore] at hc
      by_cases h : n / b = 0
      · simp [h] at hc
        rcases hc with hc | hc
        · simp [hc, hd]
        · exact hds c hc
      · simp only [h, if_false] at hc
        refine ih _ _ ?_ hb10 c hc
        intro c' hc'
        rcases List.mem_cons.mp hc' with h1 | h2
        · simpa [h1] using hd
        · exact hds c' h2

theorem repr_length_pos (n : Nat) : 1 ≤ (Nat.repr n).length := by
  show 1 ≤ (Nat.toDigits 10 n).asString.length
  have := toDigitsCore_length_ge_one 10 (n + 1) n [] (by omega)
  simpa [Nat.toDigits, List.asString, String.length] using this

theorem repr_length_ge_two (n : Nat) (h : 10 ≤ n) :
    2 ≤ (Nat.repr n).length := by
  show 2 ≤ (Nat.toDigits 10 n).asString.length
  have hdiv : n / 10 ≠ 0 := by
    intro hd
    have := Nat.div_eq_of_lt (by omega : n < 10)
    omega
  have h1 : Nat.toDigits 10 n =
      Nat.toDigitsCore 10 n (n / 10) [Nat.digitChar (n % 10)] := by
    simp [Nat.toDigits, Nat.toDigitsCore, hdiv]
  have h2 := toDigitsCore_length_ge_one 10 n (n / 10)
    [Nat.digitChar (n % 10)] (by omega)
  simp only [h1]
  simpa [List.asString, String.length] using h2

theorem repr_all_digit (n : Nat) : ∀ c ∈ (Nat.repr n).data, c.isDigit := by
  intro c hc
  refine toDigitsCore_digits 10 (by omega) (n + 1) n [] ?_ (by omega) c ?_
  · intro c' hc'; simp at hc'
  · simpa [Nat.repr, Nat.toDigits, List.asString] using hc

theorem pad2_length (n : Nat) : 2 ≤ (pad2 n).length := by
  unfold pad2
  by_cases h : n < 10
  · simp only [h, if_true]
    rw [String.length_append]
    have h0 : ("0" : String).length = 1 := rfl
    have h1 : 1 ≤ (toString n).length := repr_length_pos n
    omega
  · simp only [h, if_false]
    exact repr_length_ge_two n (by omega)

theorem pad2_digits (n : Nat) : ∀ c ∈ (pad2 n).data, c.isDigit := by
  intro c hc
  unfold pad2 at hc
  by_cases h : n < 10
  · simp only [h, if_true] at hc
    rw [String.data_append] at hc
    rcases List.mem_append.mp hc with h1 | h2
    · simp at h1; simp [h1]
    · exact repr_all_digit n c h2
  · simp only [h, if_false] at hc
    exact repr_all_digit n c hc

/-- C9: for all b, f ≥ 0 and suffix in {csv.gz, parquet}, `get_key`
returns `<schema>/<table>/<table>_b<BB>_f<FF>.<suffix>` with `BB` and `FF`
zero-padded to at least two digits (so the key matches
`^<schema>/<table>/<table>_b\d{2,}_f\d{2,}\.(csv\.gz|parquet)$`). -/
theorem get_key_format (t : BaseTable) (b f : Nat) (suffix : String)
    (hs : suffix = "csv.gz" ∨ suffix = "parquet") :
    SnowflakeTable.get_key t b f suffix
      = t.schema_name ++ "/" ++ t.name ++ "/" ++ t.name ++ "_b" ++ pad2 b
        ++ "_f" ++ pad2 f ++ "." ++ suffix
    ∧ 2 ≤ (pad2 b).length ∧ 2 ≤ (pad2 f).length
    ∧ (∀ c ∈ (pad2 b).data, c.isDigit)
    ∧ (∀ c ∈ (pad2 f).data, c.isDigit)
    ∧ (suffix = "csv.gz" ∨ suffix = "parquet") := by
  refine ⟨?_, pad2_length b, pad2_length f, pad2_digits b, pad2_digits f, hs⟩
  show t.schema_name ++ "/" ++ t.name ++ "/"
      ++ (t.name ++ "_" ++ ("b" ++ pad2 b) ++ "_" ++ ("f" ++ pad2 f)
        ++ "." ++ suffix) = _
  apply String.ext
  simp [String.data_append]

/-- Witness for C9 at `b = 1`, `f = 2`, suffix `csv.gz`. -/
theorem get_key_format_witness :
    SnowflakeTable.get_key tableCsvUpsert 1 2 "csv.gz"
      = "schema0" ++ "/" ++ "table_csv_upsert" ++ "/" ++ "table_csv_upsert"
        ++ "_b" ++ pad2 1 ++ "_f" ++ pad2 2 ++ "." ++ "csv.gz"
    ∧ 2 ≤ (pad2 1).length ∧ 2 ≤ (pad2 2).length :=
  ⟨(get_key_format tableCsvUpsert 1 2 "csv.gz" (Or.inl rfl)).1,
   (get_key_format tableCsvUpsert 1 2 "csv.gz" (Or.inl rfl)).2.1,
   (get_key_format tableCsvUpsert 1 2 "csv.gz" (Or.inl rfl)).2.2.1⟩

/-- C8: `filter_schemas`/`filter_tables` semantics: `None` selects all
schemas, the empty list selects none (likewise for tables); without
explicit table names every ignored table is excluded, and an explicitly
named table is returned even when its ignore flag is set. -/
theorem filter_none_empty_ignore (w : BaseWarehouse) (s : BaseSchema)
    (names : List String) :
    w.filter_schemas none = w.schemas
    ∧ w.filter_schemas (some []) = []
    ∧ s.filter_tables (some []) = []
    ∧ (∀ t, t ∈ s.filter_tables none ↔
        t ∈ s.tables ∧ t.meta.ignore = false)
    ∧ (∀ t ∈ s.tables, t.name ∈ names.map strLower →
        t ∈ s.filter_tables (some names)) := by
  refine ⟨rfl, ?_, ?_, ?_, ?_⟩
  · simp [BaseWarehouse.filter_schemas]
  · simp [BaseSchema.filter_tables]
  · intro t
    simp [BaseSchema.filter_tables, List.mem_filter]
  · intro t ht hname
    simp only [BaseSchema.filter_tables, List.mem_filter]
    exact ⟨ht, by simpa using hname⟩

/-- Witness for C8: the ignored table `tb` of the fixture schema is
returned when named explicitly. -/
theorem filter_none_empty_ignore_witness :
    { schema_name := "s1", name := "tb",
      meta := { ignore := true } : BaseTable }
      ∈ schIgnore.filter_tables (some ["TB"]) :=
  (filter_none_empty_ignore wIgnore schIgnore ["TB"]).2.2.2.2
    _ (by simp [schIgnore]) (by decide)

/-- C7: with `options.start` unset, a truthy `timestamp_field` routes the
stored watermark into `start`; without one the effective start is
`MIN_START = 1900-01-01T00:00:00`; date-only bounds (length 10) are
normalized to start-of-day for `start` and end-of-day for `end`. -/
theorem time_range_from_task_props (options : TaskOptions) (meta : TableMeta)
    (wm : Option String) (tr : TimeRange) (s e : String)
    (hstart : options.start = none) :
    TimeRange.min_start_str = "1900-01-01T00:00:00"
    ∧ (optStrTruthy meta.timestamp_field = true →
        (TimeRange.from_task options meta wm).start = wm)
    ∧ (optStrTruthy meta.timestamp_field = false →
        (TimeRange.from_task options meta wm).start = none
        ∧ (TimeRange.from_task options meta wm).start_str
            = "1900-01-01T00:00:00")
    ∧ (tr.start = some s → s.length = 10 →
        tr.start_datetime_str = s ++ "T00:00:00")
    ∧ (tr.end_ = some e → e.length = 10 →
        tr.end_datetime_str = e ++ "T23:59:59") := by
  refine ⟨rfl, ?_, ?_, ?_, ?_⟩
  · intro h
    simp [TimeRange.from_task, hstart, h]
  · intro h
    constructor
    · simp [TimeRange.from_task, hstart, h]
    · simp [TimeRange.from_task, TimeRange.start_str, hstart, h,
        TimeRange.min_start_str]
  · intro hs hlen
    have hne : s ≠ "" := by
      intro h0
      rw [h0] at hlen
      simp [String.length] at hlen
    have h1 : tr.start_str = s := by
      simp [TimeRange.start_str, hs, hne]
    simp [TimeRange.start_datetime_str, h1, hlen]
  · intro he hlen
    have hne : e ≠ "" := by
      intro h0
      rw [h0] at hlen
      simp [String.length] at hlen
    have h1 : tr.end_str = e := by
      simp [TimeRange.end_str, he, hne]
    simp [TimeRange.end_datetime_str, h1, hlen]

/-- Witness for C7: the watermark feedthrough scenario and the date-only
normalization at concrete values. -/
theorem time_range_from_task_props_witness :
    (TimeRange.from_task {} { timestamp_field := some "column1" }
      (some "2024-01-01T00:00:00")).start = some "2024-01-01T00:00:00"
    ∧ (TimeRange.mk (some "2024-01-05") (some "2024-01-07")
        "Europe/Berlin").start_datetime_str = "2024-01-05" ++ "T00:00:00" := by
  have h := time_range_from_task_props {} { timestamp_field := some "column1" }
    (some "2024-01-01T00:00:00")
    (TimeRange.mk (some "2024-01-05") (some "2024-01-07") "Europe/Berlin")
    "2024-01-05" "2024-01-07" rfl
  exact ⟨h.2.1 (by decide), h.2.2.2.1 rfl (by decide)⟩

/-- C5: DELETE-match resolution order for upsert tables: a truthy
`primary_key` yields AND-joined key equality; otherwise a truthy
`timestamp_key` yields the `[MIN, MAX]`-or-NULL range delete; otherwise
statement generation fails and (without a truncate override) the whole
load-statement sequence fails with the same error. -/
theorem delete_match_resolution (db stage now : String) (t : BaseTable)
    (pk ts : String) :
    (t.meta.primary_key = some pk → pk ≠ "" →
      SnowflakeTableUpsert.delete_from_table_stmt db t
        = Except.ok ("DELETE FROM " ++ t.table_uri db ++ "\nUSING "
            ++ t.table_uri db ++ "_stage" ++ "\nWHERE "
            ++ String.intercalate " AND " ((strSplitOn ';' pk).map
              (fun column => t.name ++ "." ++ column ++ " = " ++ t.name
                ++ "_stage" ++ "." ++ column))))
    ∧ (optStrTruthy t.meta.primary_key = false →
        t.meta.timestamp_key = some ts → ts ≠ "" →
        SnowflakeTableUpsert.delete_from_table_stmt db t
          = Except.ok ("DELETE FROM " ++ t.table_uri db
              ++ "\nUSING (\n    SELECT\nMIN(" ++ ts
              ++ ") AS min_ts,\nMAX(" ++ ts ++ ") AS max_ts\n    FROM "
              ++ t.table_uri db ++ "_stage" ++ "\n) AS range\nWHERE (" ++ ts
              ++ " BETWEEN range.min_ts AND range.max_ts)\n    OR " ++ ts
              ++ " IS NULL"))
    ∧ (optStrTruthy t.meta.primary_key = false →
        optStrTruthy t.meta.timestamp_key = false →
        SnowflakeTableUpsert.delete_from_table_stmt db t
          = Except.error "Primary key or timestamp_key is required for upsert."
        ∧ (t.meta.truncate.getD false = false →
            (∀ stmts, SnowflakeTableUpsert.load_stmt db stage now t
              ≠ Except.ok stmts)
            ∧ (t.meta.file_format = "csv" →
                SnowflakeTableUpsert.load_stmt db stage now t
                  = Except.error
                    "Primary key or timestamp_key is required for upsert."))) := by
  refine ⟨?_, ?_, ?_⟩
  · intro hpk hne
    have h1 : optStrTruthy t.meta.primary_key = true := by
      simp [optStrTruthy, hpk, hne]
    simp only [SnowflakeTableUpsert.delete_from_table_stmt, h1, if_true]
    simp [SnowflakeTableUpsert.delete_by_primary_key, hpk,
      default_stage_suffix]
  · intro hpk hts hne
    have h1 : optStrTruthy t.meta.timestamp_key = true := by
      simp [optStrTruthy, hts, hne]
    simp only [SnowflakeTableUpsert.delete_from_table_stmt, hpk, h1,
      Bool.false_eq_true, if_false, if_true]
    simp [SnowflakeTableUpsert.delete_by_datetime_range, hts,
      default_stage_suffix]
  · intro hpk hts
    have hdel : SnowflakeTableUpsert.delete_from_table_stmt db t
        = Except.error
          "Primary key or timestamp_key is required for upsert." := by
      simp [SnowflakeTableUpsert.delete_from_table_stmt, hpk, hts]
    refine ⟨hdel, ?_⟩
    intro htr
    constructor
    · intro stmts
      simp only [SnowflakeTableUpsert.load_stmt, htr, if_false,
        Bool.false_eq_true]
      cases SnowflakeTable.copy_table_stmt db stage t default_stage_suffix with
      | error e => intro h; exact Except.noConfusion h
      | ok c =>
          cases SnowflakeTable.update_load_date_stmt db now t
              default_stage_suffix with
          | error e => intro h; exact Except.noConfusion h
          | ok u =>
              show Except.bind
                (SnowflakeTableUpsert.delete_from_table_stmt db t) _ ≠ _
              rw [hdel]
              intro h
              exact Except.noConfusion h
    · intro hff
      simp only [SnowflakeTableUpsert.load_stmt, htr, if_false,
        Bool.false_eq_true]
      cases hsff : t.meta.stage_file_format with
      | none =>
          simp [SnowflakeTable.copy_table_stmt, SnowflakeTable.file_format,
            SnowflakeTable.file_format.ffmatch,
            SnowflakeTable.update_load_date_stmt, default_stage_suffix,
            hsff, hff, hdel, bind, Except.bind]
      | some sff =>
          by_cases hs0 : sff = "" <;>
            simp [SnowflakeTable.copy_table_stmt, SnowflakeTable.file_format,
              SnowflakeTable.file_format.ffmatch,
              SnowflakeTable.update_load_date_stmt, default_stage_suffix,
              hsff, hff, hdel, hs0, bind, Except.bind]

/-- Witness for C5: the three resolution branches on the fixture tables. -/
theorem delete_match_resolution_witness :
    SnowflakeTableUpsert.delete_from_table_stmt "sources_dev" tableCsvUpsert
      = Except.ok ("DELETE FROM sources_dev.schema0.table_csv_upsert\nUSING sources_dev.schema0.table_csv_upsert_stage\nWHERE table_csv_upsert.column0 = table_csv_upsert_stage.column0")
    ∧ SnowflakeTableUpsert.delete_from_table_stmt "sources_dev" tableTsUpsert
      = Except.ok ("DELETE FROM sources_dev.schema0.table_ts\nUSING (\n    SELECT\nMIN(column1) AS min_ts,\nMAX(column1) AS max_ts\n    FROM sources_dev.schema0.table_ts_stage\n) AS range\nWHERE (column1 BETWEEN range.min_ts AND range.max_ts)\n    OR column1 IS NULL")
    ∧ SnowflakeTableUpsert.delete_from_table_stmt "sources_dev" tableNoKey
      = Except.error "Primary key or timestamp_key is required for upsert." :=
  ⟨(delete_match_resolution "sources_dev" "public.stage" "now" tableCsvUpsert
      "column0" "x").1 rfl (by decide),
   (delete_match_resolution "sources_dev" "public.stage" "now" tableTsUpsert
      "x" "column1").2.1 (by decide) rfl (by decide),
   ((delete_match_resolution "sources_dev" "public.stage" "now" tableNoKey
      "x" "y").2.2 (by decide) (by decide)).1⟩

/-- C4: for a csv table with a truthy primary key and no truncate
override, the load sequence is exactly six statements in order: DROP the
staging table, CREATE it LIKE the target, COPY INTO it, UPDATE its
load_date, DELETE FROM the target USING the staging table with AND-joined
key equality, INSERT the staging table into the target. -/
theorem upsert_load_stmt_six (db stage now : String) (t : BaseTable)
    (pk : String) (hpk : t.meta.primary_key = some pk) (hne : pk ≠ "")
    (htr : t.meta.truncate.getD false = false)
    (hff : t.meta.file_format = "csv")
    (hsff : t.meta.stage_file_format = none) :
    SnowflakeTableUpsert.load_stmt db stage now t = Except.ok
      [(SQL.drop, "DROP TABLE IF EXISTS " ++ t.table_uri db ++ "_stage"),
       (SQL.create, "CREATE TABLE " ++ t.table_uri db ++ "_stage" ++ " LIKE "
         ++ t.table_uri db),
       (SQL.copy, "COPY INTO " ++ t.table_uri db ++ "_stage" ++ " ("
         ++ String.intercalate ", " t.column_names ++ ")\nFROM @"
         ++ (db ++ "." ++ stage ++ "/" ++ t.schema_name ++ "/" ++ t.name
           ++ "/")
         ++ "\nFILE_FORMAT = ( " ++ "\nTYPE = CSV\nFIELD_DELIMITER = ';'\nSKIP_BLANK_LINES = TRUE\nTRIM_SPACE = TRUE\nFIELD_OPTIONALLY_ENCLOSED_BY = '\"'\n" ++ " )"),
       (SQL.update, "UPDATE " ++ t.table_uri db ++ "_stage"
         ++ " SET load_date='" ++ now ++ "'"),
       (SQL.delete, "DELETE FROM " ++ t.table_uri db ++ "\nUSING "
         ++ t.table_uri db ++ "_stage" ++ "\nWHERE "
         ++ String.intercalate " AND " ((strSplitOn ';' pk).map
           (fun column => t.name ++ "." ++ column ++ " = " ++ t.name
             ++ "_stage" ++ "." ++ column))),
       (SQL.insert, "INSERT INTO " ++ t.table_uri db ++ " SELECT * FROM "
         ++ t.table_uri db ++ "_stage")] := by
  have hdel := (delete_match_resolution db stage now t pk "x").1 hpk hne
  simp only [SnowflakeTableUpsert.load_stmt, htr, if_false,
    Bool.false_eq_true]
  simp [SnowflakeTable.copy_table_stmt, SnowflakeTable.file_format,
    SnowflakeTable.file_format.ffmatch, SnowflakeTable.update_load_date_stmt,
    SnowflakeTable.drop_staging_table_stmt,
    SnowflakeTable.create_staging_table_stmt,
    SnowflakeTableUpsert.insert_into_table_stmt, default_stage_suffix,
    hsff, hff, hdel, bind, Except.bind]

/-- Witness for C4: the six-statement sequence for the fixture upsert
table joined with `;\n` equals the golden SQL of the repository's test. -/
theorem upsert_load_stmt_six_witness :
    (SnowflakeTableUpsert.load_stmt "sources_dev" "public.stage"
        "2024-01-01 00:00:00" tableCsvUpsert).map load_stmt_str
      = Except.ok "DROP TABLE IF EXISTS sources_dev.schema0.table_csv_upsert_stage;\nCREATE TABLE sources_dev.schema0.table_csv_upsert_stage LIKE sources_dev.schema0.table_csv_upsert;\nCOPY INTO sources_dev.schema0.table_csv_upsert_stage (column0, column1)\nFROM @sources_dev.public.stage/schema0/table_csv_upsert/\nFILE_FORMAT = ( \nTYPE = CSV\nFIELD_DELIMITER = ';'\nSKIP_BLANK_LINES = TRUE\nTRIM_SPACE = TRUE\nFIELD_OPTIONALLY_ENCLOSED_BY = '\"'\n );\nUPDATE sources_dev.schema0.table_csv_upsert_stage SET load_date='2024-01-01 00:00:00';\nDELETE FROM sources_dev.schema0.table_csv_upsert\nUSING sources_dev.schema0.table_csv_upsert_stage\nWHERE table_csv_upsert.column0 = table_csv_upsert_stage.column0;\nINSERT INTO sources_dev.schema0.table_csv_upsert SELECT * FROM sources_dev.schema0.table_csv_upsert_stage" := by
  rw [upsert_load_stmt_six "sources_dev" "public.stage" "2024-01-01 00:00:00"
    tableCsvUpsert "column0" rfl (by decide) rfl rfl rfl]
  rfl

/-- C1 (code bug): re-parsing a serialized warehouse does not restore a
schema's `meta` — the `_meta` branch of `BaseSchema.from_serialized`
assigns `schema.description` instead of `schema.meta` (`base.py` line 292),
so the description is clobbered with the meta mapping and the meta is
dropped. -/
theorem roundtrip_clobbers_schema_meta :
    BaseWarehouse.from_serialized (BaseWarehouse.serialized w0)
      = some { schemas := [{ name := "schema1"
                             description := some (Doc.map
                               [("owner", Doc.str "x")])
                             meta := none
                             tables := [tbl1] }] }
    ∧ sch1.description = some (Doc.str "d")
    ∧ sch1.meta = some (Doc.map [("owner", Doc.str "x")])
    ∧ BaseWarehouse.from_serialized (BaseWarehouse.serialized w0) ≠ some w0 := by
  refine ⟨rfl, rfl, rfl, ?_⟩
  intro h
  rw [show BaseWarehouse.from_serialized (BaseWarehouse.serialized w0)
      = some { schemas := [{ name := "schema1"
                             description := some (Doc.map
                               [("owner", Doc.str "x")])
                             meta := none
                             tables := [tbl1] }] } from rfl] at h
  simp [w0, sch1] at h

/-- C2 counterexample: with `look_back_days=5`, a timestamp key, and
caller-supplied `batches=7` (start unset), the job has 5 extract tasks,
not `max(7, meta.batches) = 7`. -/
theorem from_table_batches_counterexample :
    (ExtractLoadJob.from_table "job" "2024-01-01" "2024-01-06" "sources_dev"
        tableLookback (some ceOptions)).extract.length = 5
    ∧ (max ceOptions.batches tableLookback.meta.batches).toNat = 7
    ∧ (ExtractLoadJob.from_table "job" "2024-01-01" "2024-01-06"
        "sources_dev" tableLookback (some ceOptions)).extract.length
      ≠ (max ceOptions.batches tableLookback.meta.batches).toNat := by
  refine ⟨rfl, rfl, ?_⟩
  decide

/-- C2 (amended): the job from `from_table` has exactly one clean task and
one load task (the latter carrying `meta.truncate`), and
`max(B, meta.batches)` extract tasks numbered `0..N-1` all carrying the
job's id and the adjusted options — where `B` is the caller-supplied
`batches` after the look-back adjustment (replaced by `look_back_days`,
or by 1 without a timestamp key, when `start` is unset and
`look_back_days` is truthy). -/
theorem from_table_shape (job_id tds tde db : String) (table : BaseTable)
    (task_options : Option TaskOptions) :
    (ExtractLoadJob.from_table job_id tds tde db table task_options).job_id
      = job_id
    ∧ (ExtractLoadJob.from_table job_id tds tde db table
        task_options).extract.length
      = (max
          (if (task_options.getD {}).start = none
              ∧ optIntTruthy table.meta.look_back_days then
            (if optStrTruthy table.meta.timestamp_key then
              table.meta.look_back_days.getD 0 else 1)
          else (task_options.getD {}).batches)
          table.meta.batches).toNat
    ∧ (ExtractLoadJob.from_table job_id tds tde db table
        task_options).extract.map (fun e => e.task_number)
      = (List.range (ExtractLoadJob.from_table job_id tds tde db table
          task_options).extract.length).map Int.ofNat
    ∧ (∀ e ∈ (ExtractLoadJob.from_table job_id tds tde db table
        task_options).extract,
        e.job_id = job_id
        ∧ e.options = ExtractLoadJob.effective_options tds tde table.meta
            task_options)
    ∧ (ExtractLoadJob.from_table job_id tds tde db table
        task_options).clean.job_id = job_id
    ∧ (ExtractLoadJob.from_table job_id tds tde db table
        task_options).load.job_id = job_id
    ∧ (ExtractLoadJob.from_table job_id tds tde db table
        task_options).load.truncate = table.meta.truncate := by
  have heff : ∀ (m : TableMeta) (o : Option TaskOptions),
      (ExtractLoadJob.effective_options tds tde m o).batches
        = max (if (o.getD {}).start = none ∧ optIntTruthy m.look_back_days
            then (if optStrTruthy m.timestamp_key then
              m.look_back_days.getD 0 else 1)
            else (o.getD {}).batches) m.batches := by
    intro m o
    by_cases h : (o.getD {}).start = none ∧ optIntTruthy m.look_back_days
    · simp [ExtractLoadJob.effective_options, h]
    · simp [ExtractLoadJob.effective_options, h]
  refine ⟨rfl, ?_, ?_, ?_, rfl, rfl, rfl⟩
  · simp only [ExtractLoadJob.from_table, List.length_map, List.length_range]
    rw [heff]
  · simp only [ExtractLoadJob.from_table, List.length_map, List.length_range,
      List.map_map]
    rfl
  · intro e he
    simp only [ExtractLoadJob.from_table, List.mem_map,
      List.mem_range] at he
    obtain ⟨n, _, rfl⟩ := he
    exact ⟨rfl, rfl⟩

/-- C10 (implicit): every job in a schedule produced by `ScheduleTask`
comes from a filtered table whose ignore flag is false — an ignored table
never yields a job, even when it was explicitly named. -/
theorem schedule_never_contains_ignored (ids : Nat → String)
    (tds tde db : String) (w : BaseWarehouse)
    (sn tn : Option (List String)) (options : TaskOptions) :
    ∀ job ∈ (ScheduleTask.run ids tds tde db w sn tn options).schedule,
      ∃ i t, t ∈ w.filter sn tn true ∧ t.meta.ignore = false
        ∧ job = ExtractLoadJob.from_table (ids i) tds tde db t
            (some options) := by
  intro job hjob
  simp only [ScheduleTask.run, Schedule.from_tables, List.mem_map] at hjob
  obtain ⟨p, hp, rfl⟩ := hjob
  have h2 : p.2 ∈ (w.filter sn tn true).filter (fun t => !t.meta.ignore) := by
    obtain ⟨i, t⟩ := p
    have h1 := List.mem_enum hp
    rw [show (i, t).2 = t from rfl, h1.2]
    exact List.getElem_mem h1.1
  have h3 := List.mem_filter.mp h2
  exact ⟨p.1, p.2, h3.1, by simpa using h3.2, rfl⟩

/-- Witness for C10: the fixture warehouse names both its tables, yet the
only job in the schedule comes from the non-ignored one. -/
theorem schedule_never_contains_ignored_witness :
    ∃ i t, t ∈ wIgnore.filter (some ["s1"]) (some ["ta", "tb"]) true
      ∧ t.meta.ignore = false
      ∧ exJob = ExtractLoadJob.from_table (idsFun i) "2024-01-01"
          "2024-01-06" "sources_dev" t (some {}) :=
  schedule_never_contains_ignored idsFun "2024-01-01" "2024-01-06"
    "sources_dev" wIgnore (some ["s1"]) (some ["ta", "tb"]) {} exJob
    (by decide)

-- ### Round-robin interleaving lemmas (for the stratify claim)

theorem flatten_filter_nonempty (qs : List (List BaseTable)) :
    (qs.filter (fun q => !q.isEmpty)).flatten = qs.flatten := by
  induction qs with
  | nil => rfl
  | cons q rest ih =>
      by_cases hq : q.isEmpty
      · have : q = [] := by simpa [List.isEmpty_iff] using hq
        simp [List.filter_cons, hq, this, ih]
      · simp [List.filter_cons, hq, ih]

theorem heads_tails_perm :
    ∀ (qs : List (List BaseTable)), (∀ q ∈ qs, q ≠ []) →
      qs.flatten.Perm
        (qs.filterMap List.head? ++ (qs.map List.tail).flatten) := by
  intro qs
  induction qs with
  | nil => intro _; simp
  | cons q rest ih =>
      intro hall
      rcases q with _ | ⟨a, q⟩
      · exact absurd rfl (hall [] (by simp))
      · have hrest := ih (fun q hq => hall q (by simp [hq]))
        simp only [List.flatten_cons, List.filterMap_cons, List.head?_cons,
          List.map_cons, List.tail_cons, List.cons_append]
        refine List.Perm.cons a ?_
        refine List.Perm.trans (hrest.append_left q) ?_
        rw [← List.append_assoc, ← List.append_assoc]
        exact List.Perm.append_right _ List.perm_append_comm

theorem sum_filter_le (qs : List (List BaseTable)) :
    ((qs.filter (fun q => !q.isEmpty)).map List.length).sum
      ≤ (qs.map List.length).sum := by
  induction qs with
  | nil => simp
  | cons q rest ih =>
      by_cases hq : q.isEmpty <;> simp [List.filter_cons, hq] <;> omega

theorem sum_tails_lt (qs : List (List BaseTable)) (hne : qs ≠ [])
    (hall : ∀ q ∈ qs, q ≠ []) :
    ((qs.map List.tail).map List.length).sum < (qs.map List.length).sum := by
  induction qs with
  | nil => exact absurd rfl hne
  | cons q rest ih =>
      rcases q with _ | ⟨a, q⟩
      · exact absurd rfl (hall [] (by simp))
      · simp only [List.map_cons, List.sum_cons, List.tail_cons,
          List.length_cons]
        rcases rest with _ | ⟨r, rest⟩
        · simp
        · have := ih (by simp) (fun q hq => hall q (by simp [hq]))
          omega

theorem roundRobinAux_perm :
    ∀ (fuel : Nat) (qs : List (List BaseTable)),
      (qs.map List.length).sum ≤ fuel →
      (roundRobinAux fuel qs).Perm qs.flatten := by
  intro fuel
  induction fuel with
  | zero =>
      intro qs hsum
      have h0 : (qs.map List.length).sum = 0 := by omega
      have hlen : qs.flatten.length = 0 := by
        rw [List.length_flatten]
        omega
      have : qs.flatten = [] := List.eq_nil_of_length_eq_zero hlen
      simp [roundRobinAux, this]
  | succ fuel ih =>
      intro qs hsum
      simp only [roundRobinAux]
      by_cases hqe : (qs.filter (fun q => !q.isEmpty)).isEmpty
      · simp only [hqe, if_true]
        have h1 : (qs.filter (fun q => !q.isEmpty)) = [] := by
          simpa [List.isEmpty_iff] using hqe
        have : qs.flatten = [] := by
          rw [← flatten_filter_nonempty, h1]; rfl
        simp [this]
      · simp only [hqe, if_false]
        have h1 : (qs.filter (fun q => !q.isEmpty)) ≠ [] := by
          simpa [List.isEmpty_iff] using hqe
        have hall : ∀ q ∈ qs.filter (fun q => !q.isEmpty), q ≠ [] := by
          intro q hq
          have := List.of_mem_filter hq
          simpa [List.isEmpty_eq_false] using this
        have hsum2 :
            (((qs.filter (fun q => !q.isEmpty)).map List.tail).map
              List.length).sum ≤ fuel := by
          have ha := sum_tails_lt _ h1 hall
          have hb := sum_filter_le qs
          omega
        have hperm := ih _ hsum2
        refine List.Perm.trans (hperm.append_left _) ?_
        rw [← flatten_filter_nonempty qs]
        exact (heads_tails_perm _ hall).symm

theorem level_filter (qs : List (List BaseTable)) (i : Nat) :
    qs.filterMap (fun q => q[i]?)
      = (qs.filter (fun q => !q.isEmpty)).filterMap (fun q => q[i]?) := by
  induction qs with
  | nil => rfl
  | cons q rest ih =>
      rcases q with _ | ⟨a, q⟩
      · simpa [List.filter_cons, List.filterMap_cons] using ih
      · simp only [List.filter_cons, List.isEmpty_cons, Bool.not_false,
          if_true]
        simp only [List.filterMap_cons]
        cases hfa : (a :: q)[i]? <;> simp [hfa, ih]

theorem maxLen_filter (qs : List (List BaseTable)) :
    ((qs.filter (fun q => !q.isEmpty)).map List.length).foldr max 0
      = (qs.map List.length).foldr max 0 := by
  induction qs with
  | nil => rfl
  | cons q rest ih =>
      rcases q with _ | ⟨a, q⟩
      · simp [List.filter_cons, ih]
      · simp [List.filter_cons, ih]

theorem spec_filter (qs : List (List BaseTable)) :
    stratifySpec qs = stratifySpec (qs.filter (fun q => !q.isEmpty)) := by
  unfold stratifySpec
  rw [maxLen_filter]
  congr 1
  funext i
  exact level_filter qs i

theorem level_zero (qs : List (List BaseTable)) :
    qs.filterMap (fun q => q[0]?) = qs.filterMap List.head? := by
  have hfun : (fun q : List BaseTable => q[0]?) = List.head? := by
    funext q; cases q <;> simp
  rw [hfun]

theorem level_succ (qs : List (List BaseTable)) (i : Nat) :
    qs.filterMap (fun q => q[i + 1]?)
      = (qs.map List.tail).filterMap (fun q => q[i]?) := by
  have hfun : (fun q : List BaseTable => q[i + 1]?)
      = ((fun q : List BaseTable => q[i]?) ∘ List.tail) := by
    funext q; cases q <;> simp
  rw [hfun, ← List.filterMap_map]

theorem maxLen_tails (qs : List (List BaseTable)) (hne : qs ≠ [])
    (hall : ∀ q ∈ qs, q ≠ []) :
    ((qs.map List.tail).map List.length).foldr max 0 + 1
      = (qs.map List.length).foldr max 0 := by
  induction qs with
  | nil => exact absurd rfl hne
  | cons q rest ih =>
      rcases q with _ | ⟨a, q⟩
      · exact absurd rfl (hall [] (by simp))
      · rcases rest with _ | ⟨r, rest⟩
        · simp
        · have := ih (by simp) (fun q hq => hall q (by simp [hq]))
          simp only [List.map_cons, List.foldr_cons, List.tail_cons,
            List.length_cons] at this ⊢
          omega

theorem spec_rec (qs : List (List BaseTable)) (hall : ∀ q ∈ qs, q ≠ [])
    (hne : qs ≠ []) :
    stratifySpec qs
      = qs.filterMap List.head? ++ stratifySpec (qs.map List.tail) := by
  unfold stratifySpec
  rw [← maxLen_tails qs hne hall, List.range_succ_eq_map, List.flatMap_cons,
    level_zero]
  congr 1
  rw [List.flatMap_map]
  congr 1
  funext i
  exact level_succ qs i

theorem roundRobinAux_spec :
    ∀ (fuel : Nat) (qs : List (List BaseTable)),
      (qs.map List.length).sum ≤ fuel →
      roundRobinAux fuel qs = stratifySpec qs := by
  intro fuel
  induction fuel with
  | zero =>
      intro qs hsum
      have hall : ∀ q ∈ qs, q = [] := by
        intro q hq
        have h0 : (qs.map List.length).sum = 0 := by omega
        have := List.sum_eq_zero_iff.mp h0 (q.length) (List.mem_map_of_mem _ hq)
        exact List.eq_nil_of_length_eq_zero this
      have hfe : qs.filter (fun q => !q.isEmpty) = [] := by
        rw [List.filter_eq_nil_iff]
        intro q hq
        simp [hall q hq]
      rw [show roundRobinAux 0 qs = [] from rfl, spec_filter qs, hfe]
      rfl
  | succ fuel ih =>
      intro qs hsum
      simp only [roundRobinAux]
      by_cases hqe : (qs.filter (fun q => !q.isEmpty)).isEmpty
      · have hfe : qs.filter (fun q => !q.isEmpty) = [] := by
          simpa [List.isEmpty_iff] using hqe
        rw [spec_filter qs, hfe]
        simp [hqe]
        rfl
      · simp only [hqe, if_false]
        have h1 : (qs.filter (fun q => !q.isEmpty)) ≠ [] := by
          simpa [List.isEmpty_iff] using hqe
        have hall : ∀ q ∈ qs.filter (fun q => !q.isEmpty), q ≠ [] := by
          intro q hq
          have := List.of_mem_filter hq
          simpa [List.isEmpty_eq_false] using this
        have hsum2 :
            (((qs.filter (fun q => !q.isEmpty)).map List.tail).map
              List.length).sum ≤ fuel := by
          have ha := sum_tails_lt _ h1 hall
          have hb := sum_filter_le qs
          omega
        rw [ih _ hsum2, spec_filter qs, spec_rec _ hall h1]
        simp

/-- C6: filtering with `stratify=true` returns the same tables as without
(as a permutation), ordered round-robin: level i of every schema precedes
level i+1 of any schema (the `stratifySpec` level decomposition); the
3-schema, 3-table scenario yields the nine pairs in the interleaved
order. -/
theorem filter_stratify_props (w : BaseWarehouse)
    (sn tn : Option (List String)) :
    (w.filter sn tn true).Perm (w.filter sn tn false)
    ∧ w.filter sn tn true
        = stratifySpec ((w.filter_schemas sn).map
            (fun s => s.filter_tables tn))
    ∧ ((demoWarehouse.filter (some ["schema1", "schema3", "schema5"])
          (some ["table1", "table3", "table5"]) true).map
            (fun t => (t.schema_name, t.name))
        = [("schema1", "table1"), ("schema3", "table1"),
           ("schema5", "table1"), ("schema1", "table3"),
           ("schema3", "table3"), ("schema5", "table3"),
           ("schema1", "table5"), ("schema3", "table5"),
           ("schema5", "table5")]) := by
  have h1 : w.filter sn tn true
      = roundRobin ((w.filter_schemas sn).map
          (fun s => s.filter_tables tn)) := rfl
  have h2 : w.filter sn tn false
      = ((w.filter_schemas sn).map (fun s => s.filter_tables tn)).flatten :=
    rfl
  refine ⟨?_, ?_, ?_⟩
  · rw [h1, h2]
    exact roundRobinAux_perm _ _ le_rfl
  · rw [h1]
    exact roundRobinAux_spec _ _ le_rfl
  · decide

-- ### CSV dialect round-trip lemmas (for the encoder claim)

theorem runQuotedBody (s : List Char) :
    ∀ (f : List Char) (row : List (List Char))
      (rows : List (List (List Char))),
    ((s.map encodeChar).flatten).foldl csvStep
        ⟨CsvMode.inQuotes, f, row, rows⟩
      = ⟨CsvMode.inQuotes, f ++ s, row, rows⟩ := by
  induction s with
  | nil => intro f row rows; simp
  | cons c cs ih =>
      intro f row rows
      simp only [List.map_cons, List.flatten_cons, List.foldl_append]
      by_cases h1 : c = '\\'
      · subst h1
        have h2 : List.foldl csvStep ⟨CsvMode.inQuotes, f, row, rows⟩
            (encodeChar '\\')
            = ⟨CsvMode.inQuotes, f ++ ['\\'], row, rows⟩ := rfl
        rw [h2, ih]
        simp
      · by_cases h2 : c = '"'
        · subst h2
          have h3 : List.foldl csvStep ⟨CsvMode.inQuotes, f, row, rows⟩
              (encodeChar '"')
              = ⟨CsvMode.inQuotes, f ++ ['"'], row, rows⟩ := rfl
          rw [h3, ih]
          simp
        · have h3 : encodeChar c = [c] := by
            simp [encodeChar, h1, h2]
          rw [h3]
          have h4 : List.foldl csvStep ⟨CsvMode.inQuotes, f, row, rows⟩ [c]
              = ⟨CsvMode.inQuotes, f ++ [c], row, rows⟩ := by
            simp only [List.foldl_cons, List.foldl_nil, csvStep]
            rw [if_neg h2, if_neg h1]
          rw [h4, ih]
          simp

theorem runUnquotedBody (s : List Char) :
    ∀ (f : List Char) (row : List (List Char))
      (rows : List (List (List Char))),
    cellNeedsQuote s = false →
    ((s.map encodeChar).flatten).foldl csvStep
        ⟨CsvMode.inField, f, row, rows⟩
      = ⟨CsvMode.inField, f ++ s, row, rows⟩ := by
  induction s with
  | nil => intro f row rows _; simp
  | cons c cs ih =>
      intro f row rows hq
      have hqc : (c = ';' || c = '"' || c = '\n') = false
          ∧ cellNeedsQuote cs = false := by
        simp only [cellNeedsQuote, List.any_cons, Bool.or_eq_false_iff]
          at hq ⊢
        exact ⟨hq.1, hq.2⟩
      have hsemi : c ≠ ';' := by
        intro h; rw [h] at hqc; simp at hqc
      have hquote : c ≠ '"' := by
        intro h; rw [h] at hqc; simp at hqc
      have hnl : c ≠ '\n' := by
        intro h; rw [h] at hqc; simp at hqc
      simp only [List.map_cons, List.flatten_cons, List.foldl_append]
      by_cases h1 : c = '\\'
      · subst h1
        have h2 : List.foldl csvStep ⟨CsvMode.inField, f, row, rows⟩
            (encodeChar '\\')
            = ⟨CsvMode.inField, f ++ ['\\'], row, rows⟩ := rfl
        rw [h2, ih _ _ _ hqc.2]
        simp
      · have h3 : encodeChar c = [c] := by
          simp [encodeChar, h1, hquote]
        rw [h3]
        have h4 : List.foldl csvStep ⟨CsvMode.inField, f, row, rows⟩ [c]
            = ⟨CsvMode.inField, f ++ [c], row, rows⟩ := by
          simp only [List.foldl_cons, List.foldl_nil, csvStep]
          rw [if_neg hnl, if_neg hsemi, if_neg h1]
        rw [h4, ih _ _ _ hqc.2]
        simp

theorem runUnquotedCell (s : List Char) (b : Bool)
    (row : List (List Char)) (rows : List (List (List Char)))
    (hq : cellNeedsQuote s = false) :
    (encodeCellChars s).foldl csvStep
        ⟨CsvMode.fieldStart b, [], row, rows⟩
      = if s = [] then ⟨CsvMode.fieldStart b, [], row, rows⟩
        else ⟨CsvMode.inField, s, row, rows⟩ := by
  rcases s with _ | ⟨c, cs⟩
  · simp [encodeCellChars, cellNeedsQuote]
  · have hqc : (c = ';' || c = '"' || c = '\n') = false
        ∧ cellNeedsQuote cs = false := by
      simp only [cellNeedsQuote, List.any_cons, Bool.or_eq_false_iff]
        at hq ⊢
      exact ⟨hq.1, hq.2⟩
    have hsemi : c ≠ ';' := by
      intro h; rw [h] at hqc; simp at hqc
    have hquote : c ≠ '"' := by
      intro h; rw [h] at hqc; simp at hqc
    have hnl : c ≠ '\n' := by
      intro h; rw [h] at hqc; simp at hqc
    simp only [encodeCellChars, hq, if_false, Bool.false_eq_true,
      List.map_cons, List.flatten_cons, List.foldl_append]
    by_cases h1 : c = '\\'
    · subst h1
      have h2 : List.foldl csvStep ⟨CsvMode.fieldStart b, [], row, rows⟩
          (encodeChar '\\')
          = ⟨CsvMode.inField, ['\\'], row, rows⟩ := rfl
      rw [h2, runUnquotedBody cs _ _ _ hqc.2]
      simp
    · have h3 : encodeChar c = [c] := by
        simp [encodeChar, h1, hquote]
      rw [h3]
      have h4 : List.foldl csvStep ⟨CsvMode.fieldStart b, [], row, rows⟩ [c]
          = ⟨CsvMode.inField, [c], row, rows⟩ := by
        simp only [List.foldl_cons, List.foldl_nil, csvStep]
        rw [if_neg hnl, if_neg hquote, if_neg hsemi, if_neg h1]
        simp
      rw [h4, runUnquotedBody cs _ _ _ hqc.2]
      simp

theorem runQuotedCell (s : List Char) (b : Bool)
    (row : List (List Char)) (rows : List (List (List Char)))
    (hq : cellNeedsQuote s = true) :
    (encodeCellChars s).foldl csvStep
        ⟨CsvMode.fieldStart b, [], row, rows⟩
      = ⟨CsvMode.afterQuote, s, row, rows⟩ := by
  simp only [encodeCellChars, hq, if_true]
  rw [show ('"' :: ((s.map encodeChar).flatten ++ ['"']))
      = ['"'] ++ (s.map encodeChar).flatten ++ ['"'] from by simp]
  rw [List.foldl_append, List.foldl_append]
  rw [show List.foldl csvStep ⟨CsvMode.fieldStart b, [], row, rows⟩ ['"']
      = ⟨CsvMode.inQuotes, [], row, rows⟩ from rfl]
  rw [runQuotedBody s [] row rows]
  rfl

theorem intercalate_singleton_chars (a : List Char) :
    List.intercalate [';'] [a] = a := by
  simp [List.intercalate]

theorem intercalate_cons_cons_chars (a b : List Char)
    (l : List (List Char)) :
    List.intercalate [';'] (a :: b :: l)
      = a ++ [';'] ++ List.intercalate [';'] (b :: l) := by
  simp [List.intercalate, List.intersperse]

theorem runCells (cells : List (List Char)) :
    ∀ (b : Bool) (row : List (List Char))
      (rows : List (List (List Char))),
    cells ≠ [] → (b = true → cells ≠ [[]]) →
    (List.intercalate [';'] (cells.map encodeCellChars) ++ ['\n']).foldl
        csvStep ⟨CsvMode.fieldStart b, [], row, rows⟩
      = ⟨CsvMode.fieldStart true, [], [], rows ++ [row ++ cells]⟩ := by
  induction cells with
  | nil => intro b row rows hne _; exact absurd rfl hne
  | cons c rest ih =>
      intro b row rows _ hb
      rcases rest with _ | ⟨r2, rs⟩
      · rw [List.map_singleton, intercalate_singleton_chars,
          List.foldl_append]
        cases hq : cellNeedsQuote c with
        | true =>
            rw [runQuotedCell c b row rows hq]
            rfl
        | false =>
            rw [runUnquotedCell c b row rows hq]
            rcases c with _ | ⟨x, xs⟩
            · have hbf : b = false := by
                cases b
                · rfl
                · exact absurd rfl (hb rfl)
              subst hbf
              simp
              rfl
            · rw [if_neg (by simp)]
              rfl
      · rw [List.map_cons, List.map_cons, intercalate_cons_cons_chars,
          List.append_assoc, List.append_assoc, List.foldl_append]
        have ih2 := ih false (row ++ [c]) rows (by simp) (by simp)
        rw [List.map_cons] at ih2
        cases hq : cellNeedsQuote c with
        | true =>
            rw [runQuotedCell c b row rows hq]
            have h1 : List.foldl csvStep ⟨CsvMode.afterQuote, c, row, rows⟩
                ([';'] ++ (List.intercalate [';'] (encodeCellChars r2 ::
                  List.map encodeCellChars rs) ++ ['\n']))
                = List.foldl csvStep
                  ⟨CsvMode.fieldStart false, [], row ++ [c], rows⟩
                  (List.intercalate [';'] (encodeCellChars r2 ::
                    List.map encodeCellChars rs) ++ ['\n']) := rfl
            rw [h1, ih2]
            simp
        | false =>
            rw [runUnquotedCell c b row rows hq]
            rcases c with _ | ⟨x, xs⟩
            · rw [if_pos rfl]
              have h1 : List.foldl csvStep
                  ⟨CsvMode.fieldStart b, [], row, rows⟩
                  ([';'] ++ (List.intercalate [';'] (encodeCellChars r2 ::
                    List.map encodeCellChars rs) ++ ['\n']))
                  = List.foldl csvStep
                    ⟨CsvMode.fieldStart false, [], row ++ [[]], rows⟩
                    (List.intercalate [';'] (encodeCellChars r2 ::
                      List.map encodeCellChars rs) ++ ['\n']) := by
                cases b <;> rfl
              rw [h1, ih2]
              simp
            · rw [if_neg (by simp)]
              have h1 : List.foldl csvStep
                  ⟨CsvMode.inField, x :: xs, row, rows⟩
                  ([';'] ++ (List.intercalate [';'] (encodeCellChars r2 ::
                    List.map encodeCellChars rs) ++ ['\n']))
                  = List.foldl csvStep
                    ⟨CsvMode.fieldStart false, [], row ++ [x :: xs], rows⟩
                    (List.intercalate [';'] (encodeCellChars r2 ::
                      List.map encodeCellChars rs) ++ ['\n']) := rfl
              rw [h1, ih2]
              simp

theorem runRow (r : List (List Char))
    (rows : List (List (List Char))) :
    (encodeRowChars r).foldl csvStep
        ⟨CsvMode.fieldStart true, [], [], rows⟩
      = ⟨CsvMode.fieldStart true, [], [], rows ++ [r]⟩ := by
  by_cases hr : r = [[]]
  · subst hr
    rfl
  · rw [encodeRowChars, if_neg hr]
    rcases r with _ | ⟨c, rest⟩
    · rfl
    · have := runCells (c :: rest) true [] rows (by simp)
        (fun _ => hr)
      simpa using this

theorem runRows (rows : List (List (List Char))) :
    ∀ (acc : List (List (List Char))),
    (encodeRowsChars rows).foldl csvStep
        ⟨CsvMode.fieldStart true, [], [], acc⟩
      = ⟨CsvMode.fieldStart true, [], [], acc ++ rows⟩ := by
  induction rows with
  | nil => intro acc; simp [encodeRowsChars]
  | cons r rest ih =>
      intro acc
      simp only [encodeRowsChars, List.map_cons, List.flatten_cons,
        List.foldl_append]
      rw [runRow r acc]
      have := ih (acc ++ [r])
      simp only [encodeRowsChars] at this
      rw [this]
      simp

theorem parse_encode_chars (rows : List (List (List Char))) :
    parseCsvChars (encodeRowsChars rows) = rows := by
  unfold parseCsvChars
  have h0 : ({} : CsvState)
      = ⟨CsvMode.fieldStart true, [], [], []⟩ := rfl
  rw [h0, runRows rows []]
  simp

theorem string_mk_data (s : String) : String.mk s.data = s := by
  cases s; rfl

theorem parse_get_csv_bytes (rows : List (List String)) :
    parseCsv (get_csv_bytes rows) = rows := by
  unfold parseCsv get_csv_bytes
  rw [show (String.mk (encodeRowsChars
      (rows.map (fun r => r.map String.data)))).data
    = encodeRowsChars (rows.map (fun r => r.map String.data)) from rfl]
  rw [parse_encode_chars, List.map_map]
  simp [Function.comp_def, List.map_map, string_mk_data]

theorem encodeRows_append (a b : List (List String)) :
    encodeRowsChars ((a ++ b).map (fun r => r.map String.data))
      = encodeRowsChars (a.map (fun r => r.map String.data))
        ++ encodeRowsChars (b.map (fun r => r.map String.data)) := by
  simp [encodeRowsChars, List.map_append, List.flatten_append]

theorem go_bodies (gz : String → Nat) (m : Nat) :
    ∀ (cs : List (List (List String))) (fb : GzipFileBuffer),
      ((getDataBytesGo gz m cs fb).map (fun f => f.body.data)).flatten
        = encodeRowsChars ((fb.rows ++ cs.flatten).map
            (fun r => r.map String.data)) := by
  intro cs
  induction cs with
  | nil =>
      intro fb
      by_cases hrc : 0 < fb.row_count
      · simp only [getDataBytesGo, hrc, if_true, List.map_cons, List.map_nil,
          List.flatten_cons, List.flatten_nil, List.append_nil]
        rfl
      · have h0 : fb.rows = [] := by
          have : fb.rows.length = 0 := by
            simp only [GzipFileBuffer.row_count] at hrc
            omega
          exact List.eq_nil_of_length_eq_zero this
        simp [getDataBytesGo, hrc, h0, encodeRowsChars]
  | cons batch rest ih =>
      intro fb
      simp only [getDataBytesGo]
      by_cases hsz : m ≤ gz (fb.write batch).contents
      · simp only [hsz, if_true, List.map_cons, List.flatten_cons]
        rw [ih]
        show (fb.write batch).contents.data ++ _ = _
        rw [show (fb.write batch).contents.data
            = encodeRowsChars ((fb.rows ++ batch).map
                (fun r => r.map String.data)) from rfl]
        rw [show ((fb.write batch).reset).rows = [] from rfl]
        simp only [List.nil_append, List.flatten_cons]
        rw [← encodeRows_append, ← List.append_assoc]
      · simp only [hsz, if_false]
        rw [ih]
        rw [show ((fb.write batch)).rows = fb.rows ++ batch from rfl]
        simp [List.append_assoc]

theorem go_numbers (gz : String → Nat) (m : Nat) :
    ∀ (cs : List (List (List String))) (fb : GzipFileBuffer),
      (getDataBytesGo gz m cs fb).map (fun f => f.file_number)
        = List.range' fb.file_number (getDataBytesGo gz m cs fb).length := by
  intro cs
  induction cs with
  | nil =>
      intro fb
      by_cases hrc : 0 < fb.row_count <;>
        simp [getDataBytesGo, hrc, GzipFileBuffer.toDataBytes,
          List.range']
  | cons batch rest ih =>
      intro fb
      simp only [getDataBytesGo]
      by_cases hsz : m ≤ gz (fb.write batch).contents
      · simp only [hsz, if_true, List.map_cons, List.length_cons,
          List.range']
        rw [ih]
        rfl
      · simp only [hsz, if_false]
        exact ih _

theorem go_rc_pos (gz : String → Nat) (m : Nat) :
    ∀ (cs : List (List (List String))) (fb : GzipFileBuffer),
      (∀ b ∈ cs, b ≠ []) →
      ∀ f ∈ getDataBytesGo gz m cs fb, 0 < f.row_count := by
  intro cs
  induction cs with
  | nil =>
      intro fb _ f hf
      by_cases hrc : 0 < fb.row_count
      · simp only [getDataBytesGo, hrc, if_true, List.mem_singleton] at hf
        subst hf
        exact hrc
      · simp [getDataBytesGo, hrc] at hf
  | cons batch rest ih =>
      intro fb hall f hf
      simp only [getDataBytesGo] at hf
      by_cases hsz : m ≤ gz (fb.write batch).contents
      · simp only [hsz, if_true, List.mem_cons] at hf
        rcases hf with hf | hf
        · subst hf
          show 0 < (fb.write batch).rows.length
          have hb : batch ≠ [] := hall batch (by simp)
          rw [show (fb.write batch).rows = fb.rows ++ batch from rfl]
          simp only [List.length_append]
          have : 0 < batch.length := List.length_pos.mpr hb
          omega
        · exact ih _ (fun b hb => hall b (by simp [hb])) f hf
      · simp only [hsz, if_false] at hf
        exact ih _ (fun b hb => hall b (by simp [hb])) f hf

theorem go_ne_of_rows (gz : String → Nat) (m : Nat) :
    ∀ (cs : List (List (List String))) (fb : GzipFileBuffer),
      fb.rows ≠ [] → getDataBytesGo gz m cs fb ≠ [] := by
  intro cs
  induction cs with
  | nil =>
      intro fb hne
      have : 0 < fb.row_count := by
        show 0 < fb.rows.length
        exact List.length_pos.mpr hne
      simp [getDataBytesGo, this]
  | cons batch rest ih =>
      intro fb hne
      simp only [getDataBytesGo]
      by_cases hsz : m ≤ gz (fb.write batch).contents
      · simp [hsz]
      · simp only [hsz, if_false]
        apply ih
        rw [show (fb.write batch).rows = fb.rows ++ batch from rfl]
        simp [hne]

theorem go_rc_sum (gz : String → Nat) (m : Nat) :
    ∀ (cs : List (List (List String))) (fb : GzipFileBuffer),
      ((getDataBytesGo gz m cs fb).map (fun f => f.row_count)).sum
        = fb.rows.length + cs.flatten.length := by
  intro cs
  induction cs with
  | nil =>
      intro fb
      by_cases hrc : 0 < fb.row_count
      · have hrc2 : 0 < fb.rows.length := hrc
        simp [getDataBytesGo, hrc, hrc2, GzipFileBuffer.toDataBytes,
          GzipFileBuffer.row_count]
      · have h0 : fb.rows.length = 0 := by
          simp only [GzipFileBuffer.row_count] at hrc
          omega
        simp [getDataBytesGo, hrc, h0]
  | cons batch rest ih =>
      intro fb
      simp only [getDataBytesGo]
      by_cases hsz : m ≤ gz (fb.write batch).contents
      · simp only [hsz, if_true, List.map_cons, List.sum_cons]
        rw [ih]
        show (fb.write batch).rows.length + _ = _
        rw [show (fb.write batch).rows = fb.rows ++ batch from rfl,
          show ((fb.write batch).reset).rows = [] from rfl]
        simp only [List.length_append, List.length_nil, List.flatten_cons]
        omega
      · simp only [hsz, if_false]
        rw [ih]
        rw [show (fb.write batch).rows = fb.rows ++ batch from rfl]
        simp only [List.length_append, List.flatten_cons]
        omega

theorem batchedGo_flatten (m : Nat) :
    ∀ (fuel : Nat) (l : List (List String)), l.length ≤ fuel →
      (batchedGo m fuel l).flatten = l := by
  intro fuel
  induction fuel with
  | zero =>
      intro l hl
      have : l = [] := by
        cases l with
        | nil => rfl
        | cons a rest => simp at hl
      subst this
      rfl
  | succ fuel ih =>
      intro l hl
      cases l with
      | nil => rfl
      | cons a rest =>
          simp only [batchedGo, List.flatten_cons]
          rw [ih (rest.drop m) (by
            have := List.length_drop m rest
            simp only [List.length_cons] at hl
            omega)]
          simp [List.take_append_drop]

theorem batchedGo_nonempty (m : Nat) :
    ∀ (fuel : Nat) (l : List (List String)) (b : List (List String)),
      b ∈ batchedGo m fuel l → b ≠ [] := by
  intro fuel
  induction fuel with
  | zero =>
      intro l b hb
      cases l <;> simp [batchedGo] at hb
  | succ fuel ih =>
      intro l b hb
      cases l with
      | nil => simp [batchedGo] at hb
      | cons a rest =>
          simp only [batchedGo, List.mem_cons] at hb
          rcases hb with hb | hb
          · subst hb; simp
          · exact ih _ _ hb

theorem foldl_append_data :
    ∀ (l : List String) (init : String),
      (l.foldl (fun r s => r ++ s) init).data
        = init.data ++ (l.map String.data).flatten := by
  intro l
  induction l with
  | nil => intro init; simp
  | cons a rest ih =>
      intro init
      simp only [List.foldl_cons, List.map_cons, List.flatten_cons]
      rw [ih]
      simp [String.data_append]

theorem join_data (l : List String) :
    (String.join l).data = (l.map String.data).flatten := by
  show (l.foldl (fun r s => r ++ s) "").data = _
  rw [foldl_append_data]
  rfl

/-- C3: for every finite row sequence and any size oracle, file-size bound
and positive batch size, the stage encoder yields files whose decompressed
CSV bodies concatenate and parse back to exactly the input rows in order;
file numbers are 1, 2, ...; files are produced iff there is input; every
yielded file holds at least one row, and the per-file row counts sum to
the input length. -/
theorem get_data_bytes_props (gz : String → Nat)
    (max_file_size csv_batch_size : Nat) (data : List (List String))
    (hbs : 0 < csv_batch_size) :
    parseCsv (String.join ((SnowflakeTable.get_data_bytes gz data
        max_file_size csv_batch_size).map (fun f => f.body))) = data
    ∧ (SnowflakeTable.get_data_bytes gz data max_file_size
        csv_batch_size).map (fun f => f.file_number)
      = List.range' 1 (SnowflakeTable.get_data_bytes gz data max_file_size
          csv_batch_size).length
    ∧ (SnowflakeTable.get_data_bytes gz data max_file_size csv_batch_size
        = [] ↔ data = [])
    ∧ (∀ f ∈ SnowflakeTable.get_data_bytes gz data max_file_size
        csv_batch_size, 0 < f.row_count)
    ∧ ((SnowflakeTable.get_data_bytes gz data max_file_size
        csv_batch_size).map (fun f => f.row_count)).sum = data.length := by
  obtain ⟨m, rfl⟩ : ∃ m, csv_batch_size = m + 1 := by
    cases csv_batch_size with
    | zero => omega
    | succ m => exact ⟨m, rfl⟩
  have hflat : (batchedList (m + 1) data).flatten = data :=
    batchedGo_flatten m data.length data le_rfl
  have hne : ∀ b ∈ batchedList (m + 1) data, b ≠ [] := by
    intro b hb
    exact batchedGo_nonempty m data.length data b hb
  have hgo : SnowflakeTable.get_data_bytes gz data max_file_size (m + 1)
      = getDataBytesGo gz max_file_size (batchedList (m + 1) data) {} := rfl
  refine ⟨?_, ?_, ?_, ?_, ?_⟩
  · have hj : String.join ((SnowflakeTable.get_data_bytes gz data
        max_file_size (m + 1)).map (fun f => f.body))
        = get_csv_bytes data := by
      apply String.ext
      rw [join_data, List.map_map, hgo]
      have h2 := go_bodies gz max_file_size (batchedList (m + 1) data) {}
      rw [show (({} : GzipFileBuffer)).rows = [] from rfl] at h2
      simp only [List.nil_append] at h2
      rw [hflat] at h2
      simp only [Function.comp_def]
      rw [h2]
      rfl
    rw [hj, parse_get_csv_bytes]
  · rw [hgo]
    exact go_numbers gz max_file_size _ _
  · rw [hgo]
    constructor
    · intro hempty
      by_contra hdata
      have hchne : batchedList (m + 1) data ≠ [] := by
        intro h
        rw [h] at hflat
        exact hdata hflat.symm
      rcases hch : batchedList (m + 1) data with _ | ⟨batch, rest⟩
      · exact hchne hch
      · rw [hch] at hempty
        simp only [getDataBytesGo] at hempty
        by_cases hsz : max_file_size
            ≤ gz (GzipFileBuffer.write {} batch).contents
        · simp [hsz] at hempty
        · simp only [hsz, if_false] at hempty
          refine go_ne_of_rows gz max_file_size rest _ ?_ hempty
          rw [show (GzipFileBuffer.write {} batch).rows = [] ++ batch
            from rfl]
          have : batch ≠ [] := by
            apply hne
            rw [hch]
            simp
          simpa using this
    · intro hdata
      subst hdata
      rfl
  · rw [hgo]
    exact go_rc_pos gz max_file_size _ _ hne
  · rw [hgo]
    rw [go_rc_sum gz max_file_size _ _]
    simp [hflat]

/-- Witness for C3: the fixture rows with batch size 2 and an 8-byte size
oracle round-trip through the encoder. -/
theorem get_data_bytes_props_witness :
    parseCsv (String.join ((SnowflakeTable.get_data_bytes
        (fun s => s.length) [["a", "b"], ["c", "d"], ["e", "f"]] 8 2).map
        (fun f => f.body)))
      = [["a", "b"], ["c", "d"], ["e", "f"]]
    ∧ (SnowflakeTable.get_data_bytes (fun s => s.length)
        [["a", "b"], ["c", "d"], ["e", "f"]] 8 2).map
          (fun f => f.file_number)
      = List.range' 1 (SnowflakeTable.get_data_bytes (fun s => s.length)
          [["a", "b"], ["c", "d"], ["e", "f"]] 8 2).length :=
  ⟨(get_data_bytes_props (fun s => s.length) 8 2
      [["a", "b"], ["c", "d"], ["e", "f"]] (by decide)).1,
   (get_data_bytes_props (fun s => s.length) 8 2
      [["a", "b"], ["c", "d"], ["e", "f"]] (by decide)).2.1⟩

example :
    (SnowflakeTable.get_data_bytes (fun s => s.length)
        [["a", "b"], ["c", "d"], ["e", "f"]] 8 2).map
      (fun f => (f.body, f.file_number, f.row_count))
    = [("a;b\nc;d\n", 1, 2), ("e;f\n", 2, 1)] := rfl

example :
    (SnowflakeTable.load_stmt "sources_dev" "public.stage"
        "2024-01-01 00:00:00"
        { schema_name := "schema0", name := "table_csv_overwrite",
          columns := exColumns }).map load_stmt_str
    = Except.ok "TRUNCATE TABLE IF EXISTS sources_dev.schema0.table_csv_overwrite;\nCOPY INTO sources_dev.schema0.table_csv_overwrite (column0, column1)\nFROM @sources_dev.public.stage/schema0/table_csv_overwrite/\nFILE_FORMAT = ( \nTYPE = CSV\nFIELD_DELIMITER = ';'\nSKIP_BLANK_LINES = TRUE\nTRIM_SPACE = TRUE\nFIELD_OPTIONALLY_ENCLOSED_BY = '\"'\n );\nUPDATE sources_dev.schema0.table_csv_overwrite SET load_date='2024-01-01 00:00:00'" := rfl
